import Mathlib

/-!
# Verification of the enrollment reconciliation and academic-year lifecycle engine

Shallow embedding of the core logic of the gxktm web application backend
(`backend/routers/enrollment_portal.py` and `backend/routers/school_years.py`).

Modelling conventions:
* Durable identifiers (UUID primary keys and integer autoincrement keys) are
  modelled as `Nat`.  Fresh id generation (`uuid4()` / autoincrement) is a
  counter `nextId` carried in the database state; well-formed states have every
  stored id below the counter, so freshly allocated ids are new.
* A client-submitted id string (`Optional[str]` in the request schemas) is
  modelled by `SubmittedId`: `absent` for JSON null, `durable u` for a string
  that parses as a UUID (spelling the durable id `u`), `placeholder s` for any
  other string (e.g. `"new-173..."`).  `try_parse_uuid` succeeds exactly on
  `durable`.
* Python dates are modelled as year/month/day triples ordered
  lexicographically, which agrees with `datetime.date` ordering.
* Python regex `\d` and `str.strip()` are modelled over ASCII digits and
  whitespace; no claim depends on non-ASCII digit or whitespace handling.
* SQL result sets are Lean lists in table order; `scalar_one_or_none` is
  `List.find?`, row update mutates the matching row in place, row insertion
  appends, row deletion filters.
-/

namespace GXKTM

/-- A client-submitted id string (`Optional[str]`), classified by how
`uuid.UUID(...)` treats it. -/
inductive SubmittedId where
  /-- JSON `null` / Python `None`. -/
  | absent
  /-- A string that is not a valid UUID, e.g. a temporary id like `"new-173"`.
  -/
  | placeholder (s : String)
  /-- A string that is a valid UUID and denotes durable id `u`. -/
  | durable (u : Nat)
deriving DecidableEq, Repr

/-- `try_parse_uuid` from `enrollment_portal.py`: `None` if the string is
`None`, empty, or not a valid UUID. -/
def try_parse_uuid : SubmittedId → Option Nat
  | .durable u => some u
  | _ => none

/-- Python truthiness of the id string (`if student_data.id:`): `None` and the
empty string are falsy, any other string is truthy. -/
def SubmittedId.truthy : SubmittedId → Bool
  | .absent => false
  | .placeholder s => !(s == "")
  | .durable _ => true

/-- Python truthiness of an optional integer column value: `None` and `0` are
falsy. -/
def pyTruthyInt : Option Int → Bool
  | none => false
  | some v => !(v == 0)

/-- Python `a or b` on optional strings: `a` unless it is `None` or empty. -/
def pyOrStr : Option String → Option String → Option String
  | some s, b => if s == "" then b else some s
  | none, b => b

/-- A Python `datetime.date`, compared lexicographically (which matches
`date` ordering on valid dates). -/
structure PyDate where
  year : Int
  month : Int
  day : Int
deriving DecidableEq, Repr

/-- `a < b` on dates. -/
def pyDateLt (a b : PyDate) : Bool :=
  if a.year < b.year then true
  else if b.year < a.year then false
  else if a.month < b.month then true
  else if b.month < a.month then false
  else decide (a.day < b.day)

/-- ASCII decimal digits, the model of regex `\d`. -/
def isDigitChar (c : Char) : Bool := c.isDigit

/-- Model of `str.strip()`: drop leading and trailing whitespace. -/
def pyStrip (l : List Char) : List Char :=
  ((l.dropWhile Char.isWhitespace).reverse.dropWhile Char.isWhitespace).reverse

/-- Numeric value of a digit run (the model of `int(match.group(1))`). -/
def digitsToNat (l : List Char) : Nat :=
  l.foldl (fun a c => a * 10 + (c.toNat - '0'.toNat)) 0

/-- The maximal trailing digit run of a character list. -/
def trailingDigits (l : List Char) : List Char :=
  (l.reverse.takeWhile isDigitChar).reverse

/-- The character list with its maximal trailing digit run removed. -/
def dropTrailingDigits (l : List Char) : List Char :=
  (l.reverse.dropWhile isDigitChar).reverse

/-- `parse_class_level` from `enrollment_portal.py`: extract the numeric level
from a class name via `re.search(r'(\d+)$', class_name.strip())`; `None` if the
trimmed name does not end in a digit. -/
def parse_class_level (class_name : String) : Option Nat :=
  if (trailingDigits (pyStrip class_name.data)).isEmpty then none
  else some (digitsToNat (trailingDigits (pyStrip class_name.data)))

/-- `get_next_class_name` from `enrollment_portal.py`: `None` if no level was
parsed or the level is at least 9; otherwise the trimmed name with the trailing
digit run replaced by `level + 1` (`re.sub(r'\d+$', str(level + 1), ...)`). -/
def get_next_class_name (class_name : String) : Option String :=
  match parse_class_level class_name with
  | none => none
  | some level =>
    if 9 ≤ level then none
    else
      some (String.mk (dropTrailingDigits (pyStrip class_name.data) ++
                       (toString (level + 1)).data))

/-- A row of the `academic_years` table.  `start_year` and `end_year` are
nullable integer columns; `created_at` is opaque. -/
structure YearRow where
  id : Nat
  name : String
  start_year : Option Int
  end_year : Option Int
  is_current : Bool
  is_active : Bool
  enrollment_open : Bool
  transition_date : Option PyDate
  created_at : Nat
deriving DecidableEq, Repr

/-- `compute_school_year_status` from `school_years.py`, as a function of the
row and the current date.  Note the Python truthiness guards
`if year.transition_date and ...`, `if year.end_year and ...`,
`if year.start_year and ...`: a `None` (and, for the integer columns, a `0`)
value skips the corresponding rule. -/
def compute_school_year_status (year : YearRow) (today : PyDate) : String :=
  if year.is_active then "active"
  else if (match year.transition_date with
           | some d => pyDateLt today d
           | none => false) then "upcoming"
  else if (pyTruthyInt year.end_year &&
           match year.end_year with
           | some e => decide (e < today.year)
           | none => false) then "archived"
  else if (pyTruthyInt year.start_year &&
           match year.start_year with
           | some s => decide (today.year < s)
           | none => false) then "upcoming"
  else "upcoming"

/-- Error taxonomy of the routers: `notFound`/`badRequest` model
`HTTPException` with status 404/400, `serverError` the generic 500 wrapper,
and `dbFault` an exception raised by the store itself. -/
inductive ApiErr where
  | notFound (msg : String)
  | badRequest (msg : String)
  | serverError (msg : String)
  | dbFault
deriving DecidableEq, Repr

/-- The slice of the store used by the school-year endpoints: the
`academic_years` table plus the autoincrement counter for its integer key. -/
structure SchoolDB where
  years : List YearRow
  nextYearId : Nat
deriving DecidableEq, Repr

/-- Model of Python `int(s)` on a string: optional surrounding whitespace,
optional sign, then decimal digits.  (Python also accepts underscore digit
separators and non-ASCII digits; no claim depends on those.) -/
def parseIntPy (s : String) : Option Int :=
  let t := pyStrip s.data
  let signDigits : Int × List Char :=
    match t with
    | '-' :: rest => (-1, rest)
    | '+' :: rest => (1, rest)
    | _ => (1, t)
  if signDigits.2.isEmpty || !(signDigits.2.all isDigitChar) then none
  else some (signDigits.1 * (digitsToNat signDigits.2 : Int))

/-- `parse_year_label` from `school_years.py`: parse `"2025-2026"` into
`(2025, 2026)`, returning `(0, 0)` if the name does not split into exactly two
integers. -/
def parse_year_label (name : String) : Int × Int :=
  match name.splitOn "-" with
  | [a, b] =>
    match parseIntPy a, parseIntPy b with
    | some x, some y => (x, y)
    | _, _ => (0, 0)
  | _ => (0, 0)

/-- `AcademicYearCreate` request body. -/
structure YearCreate where
  name : String
  is_current : Bool
  start_year : Option Int
  end_year : Option Int
  is_active : Bool
  enrollment_open : Bool
  transition_date : Option PyDate
deriving DecidableEq, Repr

/-- Python `a or b` where `a` is an optional int and `b` an int: `a` unless it
is `None` or `0`. -/
def pyOrInt (a : Option Int) (b : Int) : Int :=
  match a with
  | some v => if v == 0 then b else v
  | none => b

/-- Lines 276-282 of `school_years.py`: start/end year fall back to
`parse_year_label` when not provided (Python truthiness: an explicit `0` also
triggers the fallback). -/
def createStartEnd (d : YearCreate) : Option Int × Option Int :=
  if !(pyTruthyInt d.start_year) || !(pyTruthyInt d.end_year) then
    (some (pyOrInt d.start_year (parse_year_label d.name).1),
     some (pyOrInt d.end_year (parse_year_label d.name).2))
  else (d.start_year, d.end_year)

/-- Lines 284-287: `transition_date` defaults to July 1st of the start year
when that year is truthy — `date(start_year, 7, 1)` raises `ValueError`
outside 1..9999, which surfaces as an unhandled exception with nothing
committed. -/
def createTransitionDate (d : YearCreate) (sy : Option Int) :
    Except ApiErr (Option PyDate) :=
  if d.transition_date.isNone && pyTruthyInt sy then
    match sy with
    | some s =>
      if 1 ≤ s ∧ s ≤ 9999 then .ok (some ⟨s, 7, 1⟩)
      else .error (.serverError "date year out of range")
    | none => .ok none
  else .ok d.transition_date

/-- The deactivation loop of `create_school_year`: clear `is_active` on every
active year. -/
def deactivateAll (ys : List YearRow) : List YearRow :=
  ys.map (fun y => if y.is_active then { y with is_active := false } else y)

/-- The `AcademicYear(...)` row built by `create_school_year`. -/
def newYearRow (db : SchoolDB) (d : YearCreate) (syEy : Option Int × Option Int)
    (td : Option PyDate) (now : Nat) : YearRow :=
  { id := db.nextYearId, name := d.name, start_year := syEy.1, end_year := syEy.2,
    is_current := d.is_current, is_active := d.is_active,
    enrollment_open := d.enrollment_open, transition_date := td, created_at := now }

/-- `create_school_year` from `school_years.py`.  `now` is the opaque
`datetime.utcnow()` value.  A duplicate name is rejected with a 400.  If the
new year is active, every currently active year is deactivated first. -/
def create_school_year (db : SchoolDB) (d : YearCreate) (now : Nat) :
    Except ApiErr (SchoolDB × YearRow) :=
  match createTransitionDate d (createStartEnd d).1 with
  | .error e => .error e
  | .ok td =>
    if !((db.years.filter (fun y => y.name == d.name)).isEmpty) then
      .error (.badRequest ("School year '" ++ d.name ++ "' already exists"))
    else
      .ok ({ years := (if d.is_active then deactivateAll db.years else db.years) ++
                      [newYearRow db d (createStartEnd d) td now],
             nextYearId := db.nextYearId + 1 },
           newYearRow db d (createStartEnd d) td now)

/-- `AcademicYearUpdate` request body under `model_dump(exclude_unset=True)`:
`none` means the field was not submitted.  `transition_date` can be explicitly
set to null.  An explicit JSON null for `is_active` or `enrollment_open`
stores SQL NULL, which every reader of those columns (truthiness tests and
`== True` comparisons) treats exactly like `false`; it is modelled as
`some false`.  Setting `name` to null is not modelled (no claim depends on a
null name). -/
structure YearUpdate where
  name : Option String
  is_active : Option Bool
  enrollment_open : Option Bool
  transition_date : Option (Option PyDate)
deriving DecidableEq, Repr

/-- The `setattr` loop of `update_school_year` plus the trailing
`is_current`-sync assignment. -/
def applyYearUpdate (d : YearUpdate) (y : YearRow) : YearRow :=
  let y1 := match d.name with | some n => { y with name := n } | none => y
  let y2 := match d.is_active with | some b => { y1 with is_active := b } | none => y1
  let y3 := match d.enrollment_open with | some b => { y2 with enrollment_open := b } | none => y2
  let y4 := match d.transition_date with | some t => { y3 with transition_date := t } | none => y3
  match d.is_active with
  | some b => { y4 with is_current := b }
  | none => y4

/-- `update_school_year` from `school_years.py`: 404 if the id is unknown;
if the update sets `is_active = true`, first deactivate every other active
year; then apply the submitted fields and sync `is_current`. -/
def update_school_year (db : SchoolDB) (yid : Nat) (d : YearUpdate) :
    Except ApiErr SchoolDB :=
  match db.years.find? (fun y => y.id == yid) with
  | none => .error (.notFound "School year not found")
  | some _ =>
    .ok { db with years :=
      (if d.is_active == some true then
         db.years.map (fun y =>
           if y.is_active && !(y.id == yid) then { y with is_active := false } else y)
       else db.years).map (fun y => if y.id == yid then applyYearUpdate d y else y) }

/-- `new_year.is_active = True; new_year.is_current = True` applied to the
target row. -/
def activateYear (ys : List YearRow) (targetId : Nat) : List YearRow :=
  ys.map (fun y =>
    if y.id == targetId then { y with is_active := true, is_current := true } else y)

/-- `old_active_year.is_active = False; old_active_year.is_current = False`
applied to the previous active row. -/
def deactivateYear (ys : List YearRow) (oldId : Nat) : List YearRow :=
  ys.map (fun y =>
    if y.id == oldId then { y with is_active := false, is_current := false } else y)

/-- `transition_school_year` from `school_years.py`: 404 if the target id is
unknown; load the current active year with `scalar_one_or_none` (which raises
if more than one row is active, surfacing as a 500 with nothing committed);
deactivate it if it differs from the target; activate the target. -/
def transition_school_year (db : SchoolDB) (targetId : Nat) :
    Except ApiErr SchoolDB :=
  match db.years.find? (fun y => y.id == targetId) with
  | none => .error (.notFound "Target school year not found")
  | some _ =>
    match db.years.filter (fun y => y.is_active) with
    | [] => .ok { db with years := activateYear db.years targetId }
    | [old] =>
      if !(old.id == targetId) then
        .ok { db with years := activateYear (deactivateYear db.years old.id) targetId }
      else .ok { db with years := activateYear db.years targetId }
    | _ :: _ :: _ => .error (.serverError "Multiple rows were found")

/-- PostgreSQL `ORDER BY start_year DESC, id DESC`: `descBefore a b` holds iff
row `a` sorts strictly before row `b`.  `DESC` defaults to `NULLS FIRST`, so a
NULL `start_year` sorts before every non-NULL one. -/
def descBefore (a b : YearRow) : Bool :=
  match a.start_year, b.start_year with
  | none, none => b.id < a.id
  | none, some _ => true
  | some _, none => false
  | some x, some y =>
    if y < x then true else if x < y then false else b.id < a.id

/-- `LIMIT 1` of the `descBefore`-ordered result set: the first row in order
(keeping the earlier list element on ties, which cannot occur when ids are
distinct). -/
def selectTop : List YearRow → Option YearRow
  | [] => none
  | y :: ys =>
    match selectTop ys with
    | none => some y
    | some b => some (if descBefore b y then b else y)

/-- `get_active_or_latest_academic_year` from `enrollment_portal.py`: the
active year if one exists (greatest by `(start_year, id)` among active rows),
else the newest configured year, else a 404. -/
def get_active_or_latest_academic_year (years : List YearRow) :
    Except ApiErr YearRow :=
  match selectTop (years.filter (fun y => y.is_active)) with
  | some y => .ok y
  | none =>
    match selectTop years with
    | some y => .ok y
    | none => .error (.notFound "No school year configured. Please contact administration.")

/-! ## The enrollment store and the submission request -/

/-- Family business fields (all nullable string columns), shared between the
`families` row and `FamilyInfoSubmission`; `submit_enrollment` copies every
one of them on update and on create. -/
structure FFields where
  family_name : Option String
  address : Option String
  city : Option String
  state : Option String
  zip_code : Option String
  diocese_id : Option String
deriving DecidableEq, Repr

/-- A row of the `families` table. -/
structure FamilyRow where
  id : Nat
  fields : FFields
deriving DecidableEq, Repr

/-- Guardian business fields, shared between the `guardians` row and
`EnrollmentGuardianSubmission`; the update branch copies each of them. -/
structure GFields where
  name : String
  email : Option String
  phone : Option String
  relationship_to_family : Option String
deriving DecidableEq, Repr

/-- A row of the `guardians` table. -/
structure GuardianRow where
  id : Nat
  family_id : Nat
  fields : GFields
deriving DecidableEq, Repr

/-- Emergency-contact business fields (`phone` is required). -/
structure ECFields where
  name : String
  email : Option String
  phone : String
  relationship_to_family : Option String
deriving DecidableEq, Repr

/-- A row of the `emergency_contacts` table. -/
structure ECRow where
  id : Nat
  family_id : Nat
  fields : ECFields
deriving DecidableEq, Repr

/-- Student business fields as stored in the `students` table. -/
structure SFields where
  first_name : String
  last_name : String
  middle_name : Option String
  saint_name : Option String
  date_of_birth : Option PyDate
  gender : Option String
  grade_level : Option Int
  american_school : Option String
  notes : Option String
deriving DecidableEq, Repr

/-- A row of the `students` table. -/
structure StudentRow where
  id : Nat
  family_id : Nat
  fields : SFields
deriving DecidableEq, Repr

/-- A row of the `programs` table. -/
structure ProgramRow where
  id : Nat
  name : String
deriving DecidableEq, Repr

/-- A row of the `classes` table (`program_id` and `academic_year_id` are
nullable foreign keys). -/
structure ClassRow where
  id : Nat
  name : String
  program_id : Option Nat
  academic_year_id : Option Nat
deriving DecidableEq, Repr

/-- A row of the `enrollments` table (both foreign keys nullable; deleting a
student nulls out `student_id`, as `Student.enrollments` configures no delete
cascade). -/
structure EnrollmentRow where
  id : Nat
  student_id : Option Nat
  class_id : Option Nat
deriving DecidableEq, Repr

/-- The store slice touched by `submit_enrollment`, plus the fresh-id counter
modelling `uuid4()`. -/
structure DB where
  families : List FamilyRow
  guardians : List GuardianRow
  students : List StudentRow
  emergency_contacts : List ECRow
  programs : List ProgramRow
  classes : List ClassRow
  enrollments : List EnrollmentRow
  nextId : Nat
deriving DecidableEq, Repr

/-- `EnrollmentGuardianSubmission`. -/
structure GuardianSub where
  sid : SubmittedId
  fields : GFields
deriving DecidableEq, Repr

/-- `EnrollmentEmergencyContactSubmission`. -/
structure ECSub where
  sid : SubmittedId
  fields : ECFields
deriving DecidableEq, Repr

/-- `EnrollmentStudentSubmission`.  `vietnamese_name` is accepted by the
schema but never stored; `special_needs` only feeds the `notes` column. -/
structure StudentSub where
  sid : SubmittedId
  first_name : String
  last_name : String
  middle_name : Option String
  vietnamese_name : Option String
  saint_name : Option String
  date_of_birth : Option PyDate
  gender : Option String
  grade_level : Option Int
  american_school : Option String
  special_needs : Option String
  notes : Option String
deriving DecidableEq, Repr

/-- The student column assignments performed by both the update and the create
branch of `submit_enrollment` (in particular
`notes = student_data.notes or student_data.special_needs`). -/
def StudentSub.toFields (d : StudentSub) : SFields :=
  { first_name := d.first_name, last_name := d.last_name,
    middle_name := d.middle_name, saint_name := d.saint_name,
    date_of_birth := d.date_of_birth, gender := d.gender,
    grade_level := d.grade_level, american_school := d.american_school,
    notes := pyOrStr d.notes d.special_needs }

/-- `ClassSelectionSubmission`: `student_id` is a required string (so never
`absent`), levels are optional ints. -/
structure ClassSelection where
  student_id : SubmittedId
  giao_ly_level : Option Int
  viet_ngu_level : Option Int
  giao_ly_completed : Bool
  viet_ngu_completed : Bool
deriving DecidableEq, Repr

/-- `EnrollmentSubmissionRequest`. -/
structure Request where
  family_id : Option Nat
  family_info : FFields
  guardians : List GuardianSub
  students : List StudentSub
  emergency_contacts : List ECSub
  class_selections : List ClassSelection
  academic_year_id : Nat
deriving DecidableEq, Repr

/-- `EnrollmentSubmissionResponse`. -/
structure SubmitResponse where
  success : Bool
  family_id : Nat
  enrollment_ids : List Nat
  message : String
deriving DecidableEq, Repr

/-- The `student_id_map` dict: submitted id string → durable student id.
A later assignment to the same key overwrites, hence prepend + first-match. -/
abbrev SMap := List (SubmittedId × Nat)

/-- Dict assignment `m[k] = v`. -/
def mapInsert (m : SMap) (k : SubmittedId) (v : Nat) : SMap := (k, v) :: m

/-- Dict lookup `m.get(k)`. -/
def mapGet (m : SMap) (k : SubmittedId) : Option Nat :=
  match m.find? (fun p => p.1 == k) with
  | some p => some p.2
  | none => none

/-- The per-program `level → class id` dicts (`giao_ly_classes`,
`viet_ngu_classes`). -/
abbrev LMap := List (Int × Nat)

/-- Dict assignment. -/
def lmapInsert (m : LMap) (k : Int) (v : Nat) : LMap := (k, v) :: m

/-- Dict lookup / membership. -/
def lmapGet (m : LMap) (k : Int) : Option Nat :=
  match m.find? (fun p => p.1 == k) with
  | some p => some p.2
  | none => none

/-- `needle` occurs at the head of `hay`. -/
def subListAt : List Char → List Char → Bool
  | [], _ => true
  | _ :: _, [] => false
  | n :: ns, h :: hs => n == h && subListAt ns hs

/-- `needle` occurs somewhere in `hay`. -/
def hasSubstr (hay needle : List Char) : Bool :=
  match hay with
  | [] => needle.isEmpty
  | _ :: rest => subListAt needle hay || hasSubstr rest needle

/-- Python `sub in hay` on strings. -/
def containsSubstr (hay sub : String) : Bool := hasSubstr hay.data sub.data

/-! ## The `submit_enrollment` pipeline -/

/-- Step 1 of `submit_enrollment`: resolve the family.  With a `family_id`,
load it (404 if absent) and overwrite its business fields; otherwise insert a
new family with a fresh id (`uuid4()`/`flush`). -/
def resolveFamily (db : DB) (req : Request) : Except ApiErr (DB × FamilyRow) :=
  match req.family_id with
  | some fid =>
    match db.families.find? (fun f => f.id == fid) with
    | none => .error (.notFound "Family not found")
    | some fam =>
      let fam' := { fam with fields := req.family_info }
      .ok ({ db with families := db.families.map (fun f => if f.id == fid then fam' else f) },
           fam')
  | none =>
    let fam : FamilyRow := { id := db.nextId, fields := req.family_info }
    .ok ({ db with families := db.families ++ [fam], nextId := db.nextId + 1 }, fam)

/-- The `existing_guardian_ids` set: queried only when the request carries a
`family_id` (`if request.family_id:`), otherwise left empty. -/
def existingGuardianIds (db : DB) (req : Request) (famId : Nat) : List Nat :=
  if req.family_id.isSome then
    (db.guardians.filter (fun g => g.family_id == famId)).map (fun g => g.id)
  else []

/-- The loop over `request.guardians`: an item whose id parses as a UUID that
is a member of the existing set updates that row (and marks it kept); any
other item inserts a new row under the family with a fresh id.  The
`scalar_one()` load of an id that has vanished from the table raises. -/
def processGuardians (famId : Nat) (existing : List Nat) :
    DB → List GuardianSub → List Nat → Except ApiErr (DB × List Nat)
  | db, [], kept => .ok (db, kept)
  | db, g :: rest, kept =>
    let inserted : DB :=
      { db with
        guardians := db.guardians ++ [{ id := db.nextId, family_id := famId, fields := g.fields }],
        nextId := db.nextId + 1 }
    match try_parse_uuid g.sid with
    | some u =>
      if u ∈ existing then
        match db.guardians.find? (fun row => row.id == u) with
        | none => .error (.serverError "No row was found")
        | some _ =>
          processGuardians famId existing
            { db with guardians := db.guardians.map (fun row =>
                if row.id == u then { row with fields := g.fields } else row) }
            rest (kept ++ [u])
      else processGuardians famId existing inserted rest kept
    | none => processGuardians famId existing inserted rest kept

/-- The guardian deletion loop: delete every existing guardian whose id was
not kept (`existing_guardian_ids - submitted_guardian_ids`). -/
def deleteGuardians (db : DB) (toDelete : List Nat) : DB :=
  { db with guardians := db.guardians.filter (fun g => !(toDelete.contains g.id)) }

/-- The `existing_student_ids` set. -/
def existingStudentIds (db : DB) (req : Request) (famId : Nat) : List Nat :=
  if req.family_id.isSome then
    (db.students.filter (fun s => s.family_id == famId)).map (fun s => s.id)
  else []

/-- The loop over `request.students`: like the guardian loop, but it also
builds `student_id_map`: an updated student maps its submitted id string to
its durable id; a newly inserted student maps its submitted id to the fresh
id when that submitted id is truthy (`if student_data.id:`). -/
def processStudents (famId : Nat) (existing : List Nat) :
    DB → List StudentSub → SMap → List Nat → Except ApiErr (DB × SMap × List Nat)
  | db, [], m, kept => .ok (db, m, kept)
  | db, sd :: rest, m, kept =>
    let nid := db.nextId
    let inserted : DB :=
      { db with
        students := db.students ++ [{ id := nid, family_id := famId, fields := sd.toFields }],
        nextId := nid + 1 }
    let mIns : SMap := if sd.sid.truthy then mapInsert m sd.sid nid else m
    match try_parse_uuid sd.sid with
    | some u =>
      if u ∈ existing then
        match db.students.find? (fun row => row.id == u) with
        | none => .error (.serverError "No row was found")
        | some _ =>
          processStudents famId existing
            { db with students := db.students.map (fun row =>
                if row.id == u then { row with fields := sd.toFields } else row) }
            rest (mapInsert m sd.sid u) (kept ++ [u])
      else processStudents famId existing inserted rest mIns kept
    | none => processStudents famId existing inserted rest mIns kept

/-- The student deletion loop.  `Student.enrollments` configures no delete
cascade, so at flush SQLAlchemy nulls out `student_id` on the deleted
students' enrollments (the code comment says "cascade", the mapping does
not). -/
def deleteStudents (db : DB) (toDelete : List Nat) : DB :=
  { db with
    students := db.students.filter (fun s => !(toDelete.contains s.id)),
    enrollments := db.enrollments.map (fun e =>
      match e.student_id with
      | some sid => if toDelete.contains sid then { e with student_id := none } else e
      | none => e) }

/-- The `existing_ec_ids` set. -/
def existingEcIds (db : DB) (req : Request) (famId : Nat) : List Nat :=
  if req.family_id.isSome then
    (db.emergency_contacts.filter (fun c => c.family_id == famId)).map (fun c => c.id)
  else []

/-- The loop over `request.emergency_contacts` (same shape as the guardian
loop). -/
def processEcs (famId : Nat) (existing : List Nat) :
    DB → List ECSub → List Nat → Except ApiErr (DB × List Nat)
  | db, [], kept => .ok (db, kept)
  | db, c :: rest, kept =>
    let inserted : DB :=
      { db with
        emergency_contacts :=
          db.emergency_contacts ++ [{ id := db.nextId, family_id := famId, fields := c.fields }],
        nextId := db.nextId + 1 }
    match try_parse_uuid c.sid with
    | some u =>
      if u ∈ existing then
        match db.emergency_contacts.find? (fun row => row.id == u) with
        | none => .error (.serverError "No row was found")
        | some _ =>
          processEcs famId existing
            { db with emergency_contacts := db.emergency_contacts.map (fun row =>
                if row.id == u then { row with fields := c.fields } else row) }
            rest (kept ++ [u])
      else processEcs famId existing inserted rest kept
    | none => processEcs famId existing inserted rest kept

/-- The emergency-contact deletion loop. -/
def deleteEcs (db : DB) (toDelete : List Nat) : DB :=
  { db with emergency_contacts :=
      db.emergency_contacts.filter (fun c => !(toDelete.contains c.id)) }

/-- Step 5 preamble: build the two `level → class id` dicts over the target
year's classes.  A class with no program row is skipped (`if cls.program:`);
a class whose parsed level is `None` or `0` is skipped (`if level:`); the
program kind is decided by substring tests on the program name and the class
name. -/
def buildLevelMaps (db : DB) (cs : List ClassRow) : LMap × LMap :=
  cs.foldl (fun maps c =>
    let progOpt : Option ProgramRow :=
      match c.program_id with
      | some pid => db.programs.find? (fun p => p.id == pid)
      | none => none
    match progOpt with
    | none => maps
    | some prog =>
      match parse_class_level c.name with
      | none => maps
      | some level =>
        if level == 0 then maps
        else if containsSubstr prog.name "Giao Ly" || containsSubstr c.name "Giáo Lý" then
          (lmapInsert maps.1 (level : Int) c.id, maps.2)
        else if containsSubstr prog.name "Viet Ngu" || containsSubstr c.name "Việt Ngữ" then
          (maps.1, lmapInsert maps.2 (level : Int) c.id)
        else maps) ([], [])

/-- Membership of an enrollment's (nullable) class id in the target-year
class-id list (`Enrollment.class_id.in_(...)`; SQL `IN` is false on NULL). -/
def classIdInYear (yearClassIds : List Nat) (e : EnrollmentRow) : Bool :=
  match e.class_id with
  | some c => yearClassIds.contains c
  | none => false

/-- The enrollment-clearing loop: for each submitted student that resolves
through `student_id_map`, delete its existing enrollments in target-year
classes. -/
def clearEnrollments (yearClassIds : List Nat) (m : SMap) :
    DB → List StudentSub → DB
  | db, [] => db
  | db, sd :: rest =>
    match mapGet m sd.sid with
    | none => clearEnrollments yearClassIds m db rest
    | some sid =>
      clearEnrollments yearClassIds m
        { db with enrollments := db.enrollments.filter (fun e =>
            !(e.student_id == some sid && classIdInYear yearClassIds e)) }
        rest

/-- Resolution of a class selection's `student_id`: look it up in
`student_id_map`, falling back to parsing it directly as a UUID. -/
def resolveSel (m : SMap) (sel : ClassSelection) : Option Nat :=
  match mapGet m sel.student_id with
  | some s => some s
  | none => try_parse_uuid sel.student_id

/-- `if selection.giao_ly_level and selection.giao_ly_level in giao_ly_classes:`
— the class id to enroll into, when the submitted level is truthy and present
in the level dict. -/
def selOne (lvl : Option Int) (lm : LMap) : Option Nat :=
  match lvl with
  | some l => if l == 0 then none else lmapGet lm l
  | none => none

/-- One iteration of the enrollment-creation loop on the store and the
accumulated `enrollment_ids`: skip an unresolved selection; otherwise insert
an enrollment with a fresh id for each matched level. -/
def selStep (m : SMap) (gl vn : LMap) (st : DB × List Nat) (sel : ClassSelection) :
    DB × List Nat :=
  match resolveSel m sel with
  | none => st
  | some sid =>
    let st1 : DB × List Nat :=
      match selOne sel.giao_ly_level gl with
      | some cid =>
        ({ st.1 with
           enrollments := st.1.enrollments ++
             [{ id := st.1.nextId, student_id := some sid, class_id := some cid }],
           nextId := st.1.nextId + 1 },
         st.2 ++ [st.1.nextId])
      | none => st
    match selOne sel.viet_ngu_level vn with
    | some cid =>
      ({ st1.1 with
         enrollments := st1.1.enrollments ++
           [{ id := st1.1.nextId, student_id := some sid, class_id := some cid }],
         nextId := st1.1.nextId + 1 },
       st1.2 ++ [st1.1.nextId])
    | none => st1

/-- The enrollment-creation loop over all submitted class selections. -/
def createEnrollments (m : SMap) (gl vn : LMap) :
    DB → List ClassSelection → List Nat → DB × List Nat
  | db, [], acc => (db, acc)
  | db, sel :: rest, acc =>
    createEnrollments m gl vn (selStep m gl vn (db, acc) sel).1 rest
      (selStep m gl vn (db, acc) sel).2

/-- A checkpoint modelling a store exception injected between pipeline
phases: the transactional body aborts there when `fault = some k`. -/
def ckpt (k : Nat) (fault : Option Nat) : Except ApiErr Unit :=
  if fault = some k then .error .dbFault else .ok ()

/-- Step 2 of `submit_enrollment`: the guardian reconciliation — query the
existing guardian ids, run the submitted-guardian loop, then delete the
existing guardians that were not kept. -/
def guardianPhase (db : DB) (req : Request) (famId : Nat) : Except ApiErr DB :=
  match processGuardians famId (existingGuardianIds db req famId) db req.guardians [] with
  | .error e => .error e
  | .ok (db2, kept) =>
    .ok (deleteGuardians db2
      ((existingGuardianIds db req famId).filter (fun i => !(kept.contains i))))

/-- Step 3 of `submit_enrollment`: the student reconciliation, which also
returns `student_id_map`. -/
def studentPhase (db : DB) (req : Request) (famId : Nat) :
    Except ApiErr (DB × SMap) :=
  match processStudents famId (existingStudentIds db req famId) db req.students [] [] with
  | .error e => .error e
  | .ok (db4, m, kept) =>
    .ok (deleteStudents db4
      ((existingStudentIds db req famId).filter (fun i => !(kept.contains i))), m)

/-- Step 4 of `submit_enrollment`: the emergency-contact reconciliation. -/
def ecPhase (db : DB) (req : Request) (famId : Nat) : Except ApiErr DB :=
  match processEcs famId (existingEcIds db req famId) db req.emergency_contacts [] with
  | .error e => .error e
  | .ok (db6, kept) =>
    .ok (deleteEcs db6
      ((existingEcIds db req famId).filter (fun i => !(kept.contains i))))

/-- The target academic year's classes. -/
def yearClassesOf (db : DB) (yid : Nat) : List ClassRow :=
  db.classes.filter (fun c => c.academic_year_id == some yid)

/-- The transactional body of `submit_enrollment` (everything inside the
`try`): family resolution, the three child-set reconciliations, target-year
class indexing, enrollment clearing, and enrollment creation.  `fault`
injects a store failure between phases (`none` for a fault-free run). -/
def submitBody (db0 : DB) (req : Request) (fault : Option Nat) :
    Except ApiErr (DB × SubmitResponse) :=
  match ckpt 0 fault with
  | .error e => .error e
  | .ok _ =>
  match resolveFamily db0 req with
  | .error e => .error e
  | .ok (db1, fam) =>
  match ckpt 1 fault with
  | .error e => .error e
  | .ok _ =>
  match guardianPhase db1 req fam.id with
  | .error e => .error e
  | .ok db3 =>
  match ckpt 2 fault with
  | .error e => .error e
  | .ok _ =>
  match studentPhase db3 req fam.id with
  | .error e => .error e
  | .ok (db5, smap) =>
  match ckpt 3 fault with
  | .error e => .error e
  | .ok _ =>
  match ecPhase db5 req fam.id with
  | .error e => .error e
  | .ok db7 =>
  match ckpt 4 fault with
  | .error e => .error e
  | .ok _ =>
  match ckpt 5 fault with
  | .error e => .error e
  | .ok _ =>
  match ckpt 6 fault with
  | .error e => .error e
  | .ok _ =>
    .ok ((createEnrollments smap
            (buildLevelMaps db7 (yearClassesOf db7 req.academic_year_id)).1
            (buildLevelMaps db7 (yearClassesOf db7 req.academic_year_id)).2
            (clearEnrollments ((yearClassesOf db7 req.academic_year_id).map (fun c => c.id))
              smap db7 req.students)
            req.class_selections []).1,
         { success := true, family_id := fam.id,
           enrollment_ids := (createEnrollments smap
              (buildLevelMaps db7 (yearClassesOf db7 req.academic_year_id)).1
              (buildLevelMaps db7 (yearClassesOf db7 req.academic_year_id)).2
              (clearEnrollments ((yearClassesOf db7 req.academic_year_id).map (fun c => c.id))
                smap db7 req.students)
              req.class_selections []).2,
           message := "Enrollment submitted successfully. " ++
             toString (createEnrollments smap
                (buildLevelMaps db7 (yearClassesOf db7 req.academic_year_id)).1
                (buildLevelMaps db7 (yearClassesOf db7 req.academic_year_id)).2
                (clearEnrollments ((yearClassesOf db7 req.academic_year_id).map (fun c => c.id))
                  smap db7 req.students)
                req.class_selections []).2.length ++
             " class enrollments created." })

/-- The exception wrapper of `submit_enrollment`: an `HTTPException` is
re-raised as-is, any other exception becomes a generic 500. -/
def wrapSubmitErr : ApiErr → ApiErr
  | .notFound m => .notFound m
  | .badRequest m => .badRequest m
  | _ => .serverError "Failed to submit enrollment"

/-- The `submit_enrollment` endpoint: run the transactional body; on success
commit (the body's final state becomes the store), on any exception roll back
(the store is unchanged) and surface a single failure. -/
def submit_enrollment (db : DB) (req : Request) (fault : Option Nat) :
    DB × Except ApiErr SubmitResponse :=
  match submitBody db req fault with
  | .ok (db', resp) => (db', .ok resp)
  | .error e => (db, .error (wrapSubmitErr e))

/-! ## Specification-side definitions used to state the claims -/

/-- The status cascade exactly as the specification words it: rule 3 fires
whenever `end_year` is (set and) less than the current calendar year, with no
nonzero proviso.  Used to compare the spec's cascade with
`compute_school_year_status`. -/
def claimedStatus (year : YearRow) (today : PyDate) : String :=
  if year.is_active then "active"
  else if (match year.transition_date with
           | some d => pyDateLt today d
           | none => false) then "upcoming"
  else if (match year.end_year with
           | some e => decide (e < today.year)
           | none => false) then "archived"
  else if (match year.start_year with
           | some s => decide (today.year < s)
           | none => false) then "upcoming"
  else "upcoming"

/-- The cascade amended with the Python truthiness proviso the code actually
applies: rule 3 additionally requires `end_year` to be nonzero. -/
def amendedStatus (year : YearRow) (today : PyDate) : String :=
  if year.is_active then "active"
  else if (match year.transition_date with
           | some d => pyDateLt today d
           | none => false) then "upcoming"
  else if (match year.end_year with
           | some e => !(e == 0) && decide (e < today.year)
           | none => false) then "archived"
  else if (match year.start_year with
           | some s => decide (today.year < s)
           | none => false) then "upcoming"
  else "upcoming"

/-- The rows inserted by the enrollment-creation loop, together with their
counter-derived fresh ids, as a pure function of the resolution maps and the
selections.  `createEnrollments` is proved equal to appending this list. -/
def derivedEnrollments (m : SMap) (gl vn : LMap) (startId : Nat) :
    List ClassSelection → List EnrollmentRow
  | [] => []
  | sel :: rest =>
    match resolveSel m sel with
    | none => derivedEnrollments m gl vn startId rest
    | some sid =>
      match selOne sel.giao_ly_level gl, selOne sel.viet_ngu_level vn with
      | some c1, some c2 =>
        ⟨startId, some sid, some c1⟩ :: ⟨startId + 1, some sid, some c2⟩ ::
          derivedEnrollments m gl vn (startId + 2) rest
      | some c1, none =>
        ⟨startId, some sid, some c1⟩ :: derivedEnrollments m gl vn (startId + 1) rest
      | none, some c2 =>
        ⟨startId, some sid, some c2⟩ :: derivedEnrollments m gl vn (startId + 1) rest
      | none, none => derivedEnrollments m gl vn startId rest

/-- The `student_id_map` produced by an all-update (echoed-ids) student
reconciliation: each submitted id maps to the durable id it parses to.  Used
to state the idempotence and replace-per-year properties. -/
def echoStudentMap (m : SMap) : List StudentSub → SMap
  | [] => m
  | sd :: rest => echoStudentMap (mapInsert m sd.sid ((try_parse_uuid sd.sid).getD 0)) rest

/-- The per-call enrollment-clearing predicate: an enrollment is cleared when
some submitted student resolves through `student_id_map` to its student and
its class belongs to the target year.  The sequential clearing loop filters
by the negation of this predicate. -/
def clearedPred (yc : List Nat) (m : SMap) (subs : List StudentSub)
    (e : EnrollmentRow) : Bool :=
  subs.any (fun sd => match mapGet m sd.sid with
    | some sid => e.student_id == some sid && classIdInYear yc e
    | none => false)

/-- Number of active rows in the `academic_years` table. -/
def activeCount (ys : List YearRow) : Nat := (ys.filter (fun y => y.is_active)).length

/-- Schema-level invariants of the `academic_years` table: the integer
primary key is unique, and the autoincrement counter is ahead of every stored
key. -/
def SchoolWF (db : SchoolDB) : Prop :=
  (db.years.map (fun y => y.id)).Nodup ∧ ∀ y ∈ db.years, y.id < db.nextYearId

/-- One school-year mutating endpoint call. -/
inductive YearOp where
  | create (d : YearCreate) (now : Nat)
  | update (yid : Nat) (d : YearUpdate)
  | transition (target : Nat)
deriving DecidableEq, Repr

/-- Run one endpooint call against the store; a call that raises commits
nothing, leaving the store unchanged. -/
def runYearOp (db : SchoolDB) : YearOp → SchoolDB
  | .create d now =>
    match create_school_year db d now with
    | .ok (db', _) => db'
    | .error _ => db
  | .update yid d =>
    match update_school_year db yid d with
    | .ok db' => db'
    | .error _ => db
  | .transition t =>
    match transition_school_year db t with
    | .ok db' => db'
    | .error _ => db

/-- Run a finite sequence of endpoint calls. -/
def runYearOps (db : SchoolDB) (ops : List YearOp) : SchoolDB :=
  ops.foldl runYearOp db

/-- Strict "greater (start_year, id) tuple" order on year rows with set start
years, as the claim about `selectActiveOrLatest` states it. -/
def yearTupleLt (z m : YearRow) : Prop :=
  ∃ zs ms, z.start_year = some zs ∧ m.start_year = some ms ∧
    (zs < ms ∨ (zs = ms ∧ z.id < m.id))

/-- Schema-level invariants of the store touched by `submit_enrollment`:
per-table primary-key uniqueness, and a fresh-id counter ahead of every
stored id (`uuid4()` never collides with a stored id). -/
structure DBWF (db : DB) : Prop where
  f_nodup : (db.families.map (fun f => f.id)).Nodup
  g_nodup : (db.guardians.map (fun g => g.id)).Nodup
  s_nodup : (db.students.map (fun s => s.id)).Nodup
  e_nodup : (db.emergency_contacts.map (fun c => c.id)).Nodup
  en_nodup : (db.enrollments.map (fun e => e.id)).Nodup
  f_fresh : ∀ f ∈ db.families, f.id < db.nextId
  g_fresh : ∀ g ∈ db.guardians, g.id < db.nextId
  s_fresh : ∀ s ∈ db.students, s.id < db.nextId
  e_fresh : ∀ c ∈ db.emergency_contacts, c.id < db.nextId
  en_fresh : ∀ e ∈ db.enrollments, e.id < db.nextId

/-- Concrete store for the unchecked-fallback scenario: family 1 (the
submitter) and family 2, whose student has durable id 30; one "Giao Ly"
class (id 20) at level 3 in academic year 7. -/
def crossFamDb : DB :=
  { families := [⟨1, ⟨some "Fam One", none, none, none, none, none⟩⟩,
                 ⟨2, ⟨some "Fam Two", none, none, none, none, none⟩⟩],
    guardians := [],
    students := [⟨30, 2, ⟨"Other", "Kid", none, none, none, none, none, none, none⟩⟩],
    emergency_contacts := [],
    programs := [⟨5, "Giao Ly"⟩],
    classes := [⟨20, "Giao Ly 3", some 5, some 7⟩],
    enrollments := [],
    nextId := 100 }

/-- Submission from family 1 whose single class selection names family 2's
student by its durable id (which is not in the client-id map, since no
student item is submitted). -/
def crossFamReq : Request :=
  { family_id := some 1,
    family_info := ⟨some "Fam One", none, none, none, none, none⟩,
    guardians := [],
    students := [],
    emergency_contacts := [],
    class_selections := [⟨.durable 30, some 3, none, false, false⟩],
    academic_year_id := 7 }

/-- Concrete store for the idempotent-resubmission scenario: family 1 with
one guardian (id 10), one student (id 20), one emergency contact (id 30). -/
def echoDb : DB :=
  { families := [⟨1, ⟨some "Fam", none, none, none, none, none⟩⟩],
    guardians := [⟨10, 1, ⟨"G", none, none, none⟩⟩],
    students := [⟨20, 1, ⟨"A", "B", none, none, none, none, none, none, none⟩⟩],
    emergency_contacts := [⟨30, 1, ⟨"E", none, "555", none⟩⟩],
    programs := [],
    classes := [],
    enrollments := [],
    nextId := 100 }

/-- The echoed snapshot of `echoDb`'s family 1: every durable id echoed back
with the persisted field values. -/
def echoReq : Request :=
  { family_id := some 1,
    family_info := ⟨some "Fam", none, none, none, none, none⟩,
    guardians := [⟨.durable 10, ⟨"G", none, none, none⟩⟩],
    students := [⟨.durable 20, "A", "B", none, none, none, none, none, none, none, none, none⟩],
    emergency_contacts := [⟨.durable 30, ⟨"E", none, "555", none⟩⟩],
    class_selections := [],
    academic_year_id := 7 }

/-- Guardian field payloads for the reconciliation-completeness scenario. -/
def c1G1 : GFields := ⟨"G updated", none, none, none⟩

def c1G2 : GFields := ⟨"G inserted", none, none, none⟩

def c1E1 : ECFields := ⟨"E updated", none, "111", none⟩

def c1E2 : ECFields := ⟨"E inserted", none, "222", none⟩

def c1S1 : StudentSub :=
  ⟨.durable 13, "S", "Updated", none, none, none, none, none, none, none, none, none⟩

def c1S2 : StudentSub :=
  ⟨.placeholder "s-new", "S", "Inserted", none, none, none, none, none, none, none, none, none⟩

/-- Concrete store for the reconciliation-completeness scenario: family 1
with guardians {10,11,12}, students {13,14,15}, emergency contacts
{16,17,18}. -/
def c1Db : DB :=
  { families := [⟨1, ⟨some "Fam", none, none, none, none, none⟩⟩],
    guardians := [⟨10, 1, ⟨"G0", none, none, none⟩⟩,
                  ⟨11, 1, ⟨"G1", none, none, none⟩⟩,
                  ⟨12, 1, ⟨"G2", none, none, none⟩⟩],
    students := [⟨13, 1, ⟨"S", "Zero", none, none, none, none, none, none, none⟩⟩,
                 ⟨14, 1, ⟨"S", "One", none, none, none, none, none, none, none⟩⟩,
                 ⟨15, 1, ⟨"S", "Two", none, none, none, none, none, none, none⟩⟩],
    emergency_contacts := [⟨16, 1, ⟨"E0", none, "0", none⟩⟩,
                           ⟨17, 1, ⟨"E1", none, "1", none⟩⟩,
                           ⟨18, 1, ⟨"E2", none, "2", none⟩⟩],
    programs := [],
    classes := [],
    enrollments := [],
    nextId := 100 }

/-- Submission for the reconciliation-completeness scenario: per child kind,
one item echoing durable id 10 / 13 / 16 and one item with a placeholder id;
the rows with the other two ids are omitted. -/
def c1Req : Request :=
  { family_id := some 1,
    family_info := ⟨some "Fam", none, none, none, none, none⟩,
    guardians := [⟨.durable 10, c1G1⟩, ⟨.placeholder "g-new", c1G2⟩],
    students := [c1S1, c1S2],
    emergency_contacts := [⟨.durable 16, c1E1⟩, ⟨.placeholder "e-new", c1E2⟩],
    class_selections := [],
    academic_year_id := 7 }

/-- Concrete store for the replace-per-year scenario: family 1's student 20
already has an enrollment (id 50) in target-year class 40 and one (id 51) in
another year's class 41. -/
def c5Db : DB :=
  { families := [⟨1, ⟨some "Fam", none, none, none, none, none⟩⟩],
    guardians := [],
    students := [⟨20, 1, ⟨"A", "B", none, none, none, none, none, none, none⟩⟩],
    emergency_contacts := [],
    programs := [⟨5, "Giao Ly"⟩],
    classes := [⟨40, "Giao Ly 3", some 5, some 7⟩, ⟨41, "Giao Ly 4", some 5, some 8⟩],
    enrollments := [⟨50, some 20, some 40⟩, ⟨51, some 20, some 41⟩],
    nextId := 100 }

/-- Resubmission for year 7 with a different level selection: echoes student
20 and selects Giao Ly level 3. -/
def c5Req : Request :=
  { family_id := some 1,
    family_info := ⟨some "Fam", none, none, none, none, none⟩,
    guardians := [],
    students := [⟨.durable 20, "A", "B", none, none, none, none, none, none, none, none, none⟩],
    emergency_contacts := [],
    class_selections := [⟨.durable 20, some 3, none, false, false⟩],
    academic_year_id := 7 }

/-! ## Theorems -/

/-- C3.  Transactional atomicity of submission: whenever the transactional
body of `submit_enrollment` raises — at family resolution (the 404), at any
reconciliation or enrollment phase (an injected store fault at any
checkpoint), the endpoint rolls the transaction back and surfaces a single
failure: the resulting store equals the original store, so no family,
guardian, student, emergency-contact, or enrollment change is persisted. -/
theorem submit_enrollment_atomic (db : DB) (req : Request) (fault : Option Nat)
    (e : ApiErr) (h : (submit_enrollment db req fault).2 = .error e) :
    (submit_enrollment db req fault).1 = db := by
  unfold submit_enrollment at h ⊢
  cases hb : submitBody db req fault with
  | ok v => rw [hb] at h; exact absurd h (by simp)
  | error e' => simp [hb]

/-- Witness for C3: a store fault injected at the first checkpoint makes the
submission fail, and the store is unchanged. -/
theorem submit_enrollment_atomic_witness :
    (submit_enrollment crossFamDb crossFamReq (some 0)).1 = crossFamDb :=
  submit_enrollment_atomic crossFamDb crossFamReq (some 0)
    (.serverError "Failed to submit enrollment") rfl

/-- C8 counterexample.  The claim's cascade says a year whose `end_year` is
less than the current calendar year is archived; the code's Python truthiness
guard (`if year.end_year and ...`) skips that rule when `end_year = 0`
(reachable: `parse_year_label` yields `(0, 0)` for an unparseable name), so
the code reports "upcoming" where the claimed cascade reports "archived". -/
theorem compute_status_claim_counterexample :
    compute_school_year_status ⟨1, "bad-label", some 0, some 0, false, false, true, none, 0⟩
        ⟨2026, 10, 12⟩ = "upcoming" ∧
    claimedStatus ⟨1, "bad-label", some 0, some 0, false, false, true, none, 0⟩
        ⟨2026, 10, 12⟩ = "archived" :=
  ⟨rfl, rfl⟩

/-- C8 as amended.  The derived status equals the claimed cascade with rule 3
guarded the way the code guards it: archived only when `end_year` is set,
nonzero, and less than the current calendar year.  (Rule 4 carries the same
truthiness guard in the code, but its target coincides with the default, so
that guard is observationally invisible.)  In particular every non-active year
falls through to "upcoming", never "active". -/
theorem compute_status_eq_amended (year : YearRow) (today : PyDate) :
    compute_school_year_status year today = amendedStatus year today := by
  rcases year with ⟨i, n, sy, ey, ic, ia, eo, td, ca⟩
  simp only [compute_school_year_status, amendedStatus, pyTruthyInt]
  cases ey <;> cases sy <;> simp [ite_self]

/-- C10.  Unchecked fallback student resolution: the submission from family 1
succeeds while its class selection names family 2's student by durable id;
the id is absent from the client-id map (no student items are submitted), the
UUID fallback accepts it without any existence or family-membership check,
and the created enrollment references the other family's student. -/
theorem submit_cross_family_enrollment :
    (submit_enrollment crossFamDb crossFamReq none).2 =
      .ok ⟨true, 1, [100],
           "Enrollment submitted successfully. 1 class enrollments created."⟩ ∧
    (submit_enrollment crossFamDb crossFamReq none).1.enrollments =
      [⟨100, some 30, some 20⟩] ∧
    crossFamReq.family_id = some 1 ∧
    crossFamReq.students = [] ∧
    (∃ s ∈ crossFamDb.students, s.id = 30 ∧ s.family_id = 2) ∧
    (2 : Nat) ≠ 1 := by
  refine ⟨rfl, rfl, rfl, rfl, ⟨⟨30, 2, ⟨"Other", "Kid", none, none, none, none, none, none, none⟩⟩, by decide, rfl, rfl⟩, by decide⟩

lemma takeWhile_append_all {p : Char → Bool} :
    ∀ (l r : List Char), (∀ c ∈ l, p c = true) →
      (∀ c, r.head? = some c → p c = false) → (l ++ r).takeWhile p = l := by
  intro l r hl hr
  induction l with
  | nil =>
    cases r with
    | nil => rfl
    | cons c cs => simp [List.takeWhile_cons, hr c rfl]
  | cons a as ih =>
    have ha : p a = true := hl a (by simp)
    simp only [List.cons_append, List.takeWhile_cons, ha, if_true]
    rw [ih (fun c hc => hl c (by simp [hc]))]

lemma dropWhile_append_all {p : Char → Bool} :
    ∀ (l r : List Char), (∀ c ∈ l, p c = true) →
      (∀ c, r.head? = some c → p c = false) → (l ++ r).dropWhile p = r := by
  intro l r hl hr
  induction l with
  | nil =>
    cases r with
    | nil => rfl
    | cons c cs => simp [List.dropWhile_cons, hr c rfl]
  | cons a as ih =>
    have ha : p a = true := hl a (by simp)
    simp only [List.cons_append, List.dropWhile_cons, ha, if_true]
    exact ih (fun c hc => hl c (by simp [hc]))

lemma trailingDigits_decomp (a ds : List Char)
    (hds : ∀ c ∈ ds, isDigitChar c = true)
    (ha : ∀ c, a.getLast? = some c → isDigitChar c = false) :
    trailingDigits (a ++ ds) = ds ∧ dropTrailingDigits (a ++ ds) = a := by
  have hmem : ∀ c ∈ ds.reverse, isDigitChar c = true := by
    intro c hc; exact hds c (List.mem_reverse.mp hc)
  have hhd : ∀ c, a.reverse.head? = some c → isDigitChar c = false := by
    intro c hc; exact ha c (by rwa [List.head?_reverse] at hc)
  constructor
  · unfold trailingDigits
    rw [List.reverse_append, takeWhile_append_all _ _ hmem hhd, List.reverse_reverse]
  · unfold dropTrailingDigits
    rw [List.reverse_append, dropWhile_append_all _ _ hmem hhd, List.reverse_reverse]

lemma trailingDigits_eq_nil (l : List Char)
    (h : ∀ c, l.getLast? = some c → isDigitChar c = false) :
    trailingDigits l = [] := by
  unfold trailingDigits
  cases hrev : l.reverse with
  | nil => simp
  | cons c cs =>
    have hc : isDigitChar c = false := by
      apply h; rw [← List.head?_reverse, hrev]; rfl
    simp [List.takeWhile_cons, hc]

/-- C9.  Level progression: `parse_class_level` returns the integer value of
the trailing digit run of the trimmed name (absent when the trimmed name does
not end in a digit), and `get_next_class_name` is absent exactly when no level
parses or the level is at least 9, and otherwise replaces the trailing digit
run by `level + 1`; in particular "Viet Ngu 5" maps to "Viet Ngu 6" and
"Viet Ngu 9" to absent. -/
theorem level_progression_spec :
    (∀ (s : String) (a ds : List Char),
        pyStrip s.data = a ++ ds → ds ≠ [] →
        ds.all isDigitChar = true →
        (a.getLast?.all (fun c => !(isDigitChar c))) = true →
        parse_class_level s = some (digitsToNat ds) ∧
        (digitsToNat ds < 9 →
          get_next_class_name s =
            some (String.mk (a ++ (toString (digitsToNat ds + 1)).data))) ∧
        (9 ≤ digitsToNat ds → get_next_class_name s = none)) ∧
    (∀ s : String,
        ((pyStrip s.data).getLast?.all (fun c => !(isDigitChar c))) = true →
        parse_class_level s = none ∧ get_next_class_name s = none) ∧
    get_next_class_name "Viet Ngu 5" = some "Viet Ngu 6" ∧
    get_next_class_name "Viet Ngu 9" = none := by
  have lastOfAll : ∀ (l : List Char), (l.getLast?.all (fun c => !(isDigitChar c))) = true →
      ∀ c, l.getLast? = some c → isDigitChar c = false := by
    intro l hl c hc
    rw [hc] at hl
    simpa using hl
  refine ⟨?_, ?_, rfl, rfl⟩
  · intro s a ds hsplit hne hds ha
    have hds' : ∀ c ∈ ds, isDigitChar c = true := by
      intro c hc; exact List.all_eq_true.mp hds c hc
    have hdec := trailingDigits_decomp a ds hds' (lastOfAll a ha)
    have hparse : parse_class_level s = some (digitsToNat ds) := by
      unfold parse_class_level
      rw [hsplit, hdec.1]
      simp [List.isEmpty_iff, hne]
    refine ⟨hparse, ?_, ?_⟩
    · intro hlt
      unfold get_next_class_name
      rw [hparse, hsplit]
      simp [hdec.2, show ¬ (9 ≤ digitsToNat ds) from by omega]
    · intro hge
      unfold get_next_class_name
      rw [hparse]
      simp [hge]
  · intro s ha
    have htd : trailingDigits (pyStrip s.data) = [] :=
      trailingDigits_eq_nil _ (lastOfAll _ ha)
    have hparse : parse_class_level s = none := by
      unfold parse_class_level
      rw [htd]
      simp
    refine ⟨hparse, ?_⟩
    unfold get_next_class_name
    rw [hparse]

/-- Witness for C9: the characterization applied to the concrete name
"Viet Ngu 5" (trailing digit run `['5']`, value 5). -/
theorem level_progression_spec_witness :
    parse_class_level "Viet Ngu 5" = some (digitsToNat ['5']) :=
  (level_progression_spec.1 "Viet Ngu 5" "Viet Ngu ".data ['5']
    (by decide) (by decide) (by decide) (by decide)).1

lemma selectTop_eq_none {ys : List YearRow} : selectTop ys = none ↔ ys = [] := by
  cases ys with
  | nil => simp [selectTop]
  | cons y t =>
    simp only [selectTop]
    cases selectTop t <;> simp

lemma selectTop_mem {ys : List YearRow} {m : YearRow} (h : selectTop ys = some m) :
    m ∈ ys := by
  induction ys generalizing m with
  | nil => simp [selectTop] at h
  | cons y t ih =>
    simp only [selectTop] at h
    cases ht : selectTop t with
    | none =>
      rw [ht] at h
      simp at h
      simp [h]
    | some b =>
      rw [ht] at h
      simp at h
      by_cases hd : descBefore b y = true
      · rw [if_pos hd] at h
        exact List.mem_cons_of_mem _ (ih (ht.trans (by rw [h])))
      · rw [if_neg hd] at h
        simp [h]

lemma descBefore_swap {a b : YearRow} (ha : a.start_year.isSome)
    (hb : b.start_year.isSome) (hid : a.id ≠ b.id)
    (h : ¬ descBefore a b = true) : descBefore b a = true := by
  rcases Option.isSome_iff_exists.mp ha with ⟨x, hx⟩
  rcases Option.isSome_iff_exists.mp hb with ⟨y, hy⟩
  unfold descBefore at *
  rw [hx, hy] at h ⊢
  by_cases hxy : x < y
  · simp [hxy]
  · by_cases hyx : y < x
    · simp [hyx] at h
    · have hxid : ¬ b.id < a.id := by
        intro hc
        exact h (by simp [hxy, hyx, hc])
      have : a.id < b.id := by
        rcases Nat.lt_trichotomy a.id b.id with h1 | h1 | h1
        · exact h1
        · exact absurd h1 hid
        · exact absurd h1 hxid
      simp [hxy, hyx, this]

lemma descBefore_tupleLt {a b : YearRow} (ha : a.start_year.isSome)
    (hb : b.start_year.isSome) (h : descBefore a b = true) : yearTupleLt b a := by
  rcases Option.isSome_iff_exists.mp ha with ⟨x, hx⟩
  rcases Option.isSome_iff_exists.mp hb with ⟨y, hy⟩
  unfold descBefore at h
  rw [hx, hy] at h
  refine ⟨y, x, hy, hx, ?_⟩
  by_cases hxy : y < x
  · exact Or.inl hxy
  · by_cases hyx : x < y
    · simp [hxy, hyx] at h
    · have hxeq : y = x := le_antisymm (not_lt.mp hyx) (not_lt.mp hxy)
      simp [hxy, hyx] at h
      exact Or.inr ⟨hxeq, h⟩

lemma yearTupleLt_trans {a b c : YearRow} (h1 : yearTupleLt a b)
    (h2 : yearTupleLt b c) : yearTupleLt a c := by
  rcases h1 with ⟨x, y, hx, hy, h1⟩
  rcases h2 with ⟨y', z, hy', hz, h2⟩
  rw [hy] at hy'
  injection hy' with hyy
  subst hyy
  refine ⟨x, z, hx, hz, ?_⟩
  rcases h1 with h1 | ⟨h1, h1'⟩ <;> rcases h2 with h2 | ⟨h2, h2'⟩
  · exact Or.inl (h1.trans h2)
  · exact Or.inl (h2 ▸ h1)
  · exact Or.inl (h1 ▸ h2)
  · exact Or.inr ⟨h1.trans h2, h1'.trans h2'⟩

lemma nodup_map_inj {l : List YearRow} (h : (l.map (fun y => y.id)).Nodup)
    {x y : YearRow} (hx : x ∈ l) (hy : y ∈ l) (he : x.id = y.id) : x = y := by
  induction l with
  | nil => simp at hx
  | cons a t ih =>
    simp only [List.map_cons, List.nodup_cons] at h
    rcases List.mem_cons.mp hx with rfl | hx'
    · rcases List.mem_cons.mp hy with rfl | hy'
      · rfl
      · exact absurd (he ▸ List.mem_map_of_mem (fun y => y.id) hy') h.1
    · rcases List.mem_cons.mp hy with rfl | hy'
      · exact absurd (he ▸ List.mem_map_of_mem (fun y => y.id) hx') h.1
      · exact ih h.2 hx' hy'

lemma selectTop_best {ys : List YearRow} (hnd : (ys.map (fun y => y.id)).Nodup)
    (hset : ∀ z ∈ ys, z.start_year.isSome) {m : YearRow}
    (h : selectTop ys = some m) :
    ∀ z ∈ ys, z.id ≠ m.id → yearTupleLt z m := by
  induction ys generalizing m with
  | nil => simp [selectTop] at h
  | cons y t ih =>
    simp only [selectTop] at h
    have hndt : (t.map (fun y => y.id)).Nodup := by
      simp only [List.map_cons, List.nodup_cons] at hnd
      exact hnd.2
    have hyid : y.id ∉ t.map (fun r => r.id) := by
      simp only [List.map_cons, List.nodup_cons] at hnd
      exact hnd.1
    cases ht : selectTop t with
    | none =>
      rw [ht] at h
      simp at h
      intro z hz hne
      rcases List.mem_cons.mp hz with rfl | hz'
      · exact absurd (h ▸ rfl) hne
      · rw [selectTop_eq_none.mp ht] at hz'
        simp at hz'
    | some b =>
      rw [ht] at h
      simp at h
      have hbm : b ∈ t := selectTop_mem ht
      have hbsome : b.start_year.isSome := hset b (List.mem_cons_of_mem _ hbm)
      have hysome : y.start_year.isSome := hset y (by simp)
      have hyb : y.id ≠ b.id := fun hc =>
        hyid (hc ▸ List.mem_map_of_mem (fun r => r.id) hbm)
      have ihb : ∀ z ∈ t, z.id ≠ b.id → yearTupleLt z b :=
        ih hndt (fun z hz => hset z (List.mem_cons_of_mem _ hz)) ht
      by_cases hd : descBefore b y = true
      · rw [if_pos hd] at h
        subst h
        intro z hz hne
        rcases List.mem_cons.mp hz with rfl | hz'
        · exact descBefore_tupleLt hbsome (hset z (by simp)) hd
        · exact ihb z hz' hne
      · rw [if_neg hd] at h
        subst h
        have hlt_by : yearTupleLt b y :=
          descBefore_tupleLt hysome hbsome (descBefore_swap hbsome hysome (Ne.symm hyb) hd)
        intro z hz hne
        rcases List.mem_cons.mp hz with rfl | hz'
        · exact absurd rfl hne
        · by_cases hzb : z.id = b.id
          · have : z = b := nodup_map_inj hndt hz' hbm hzb
            subst this
            exact hlt_by
          · exact yearTupleLt_trans (ihb z hz' hzb) hlt_by

/-- C7.  Active-or-latest selection: when the store has exactly one row with
`is_active = true`, the enrollment-year selection returns it; when no row is
active (and start years are set, ids unique), it returns the year with the
greatest `(start_year, id)` tuple; and it fails with a 404 exactly when the
store has no academic years at all. -/
theorem active_or_latest_selection :
    (∀ (ys : List YearRow) (y : YearRow),
        ys.filter (fun r => r.is_active) = [y] →
        get_active_or_latest_academic_year ys = .ok y) ∧
    (∀ ys : List YearRow,
        (ys.map (fun r => r.id)).Nodup →
        (∀ z ∈ ys, z.start_year.isSome) →
        ys.filter (fun r => r.is_active) = [] →
        ∀ m, get_active_or_latest_academic_year ys = .ok m →
          m ∈ ys ∧ ∀ z ∈ ys, z.id ≠ m.id → yearTupleLt z m) ∧
    (∀ ys : List YearRow,
        (∃ e, get_active_or_latest_academic_year ys = .error e) ↔ ys = []) := by
  refine ⟨?_, ?_, ?_⟩
  · intro ys y hfil
    unfold get_active_or_latest_academic_year
    rw [hfil]
    rfl
  · intro ys hnd hset hfil m hok
    unfold get_active_or_latest_academic_year at hok
    rw [hfil] at hok
    simp only [selectTop] at hok
    cases ht : selectTop ys with
    | none =>
      rw [ht] at hok
      simp at hok
    | some b =>
      rw [ht] at hok
      simp at hok
      subst hok
      exact ⟨selectTop_mem ht, selectTop_best hnd hset ht⟩
  · intro ys
    constructor
    · rintro ⟨e, he⟩
      unfold get_active_or_latest_academic_year at he
      cases hact : selectTop (ys.filter (fun y => y.is_active)) with
      | none =>
        rw [hact] at he
        cases ht : selectTop ys with
        | none => exact selectTop_eq_none.mp ht
        | some b => rw [ht] at he; simp at he
      | some b => rw [hact] at he; simp at he
    · rintro rfl
      exact ⟨.notFound "No school year configured. Please contact administration.", rfl⟩

/-- Witness for C7: the unique active year is selected in a two-year store;
in an inactive two-year store the newest year is selected; the empty store
fails. -/
theorem active_or_latest_selection_witness :
    get_active_or_latest_academic_year
      [⟨1, "2024-2025", some 2024, some 2025, false, false, true, none, 0⟩,
       ⟨2, "2025-2026", some 2025, some 2026, true, true, true, none, 0⟩] =
      .ok ⟨2, "2025-2026", some 2025, some 2026, true, true, true, none, 0⟩ ∧
    yearTupleLt ⟨1, "2024-2025", some 2024, some 2025, false, false, true, none, 0⟩
      ⟨2, "2025-2026", some 2025, some 2026, false, false, true, none, 0⟩ := by
  constructor
  · exact active_or_latest_selection.1 _ _ (by decide)
  · have h := active_or_latest_selection.2.1
      [⟨1, "2024-2025", some 2024, some 2025, false, false, true, none, 0⟩,
       ⟨2, "2025-2026", some 2025, some 2026, false, false, true, none, 0⟩]
      (by decide) (by decide) (by decide)
      ⟨2, "2025-2026", some 2025, some 2026, false, false, true, none, 0⟩ rfl
    exact h.2 _ (by simp) (by decide)

lemma length_filter_mono {α} {p q : α → Bool} (l : List α)
    (h : ∀ a ∈ l, p a = true → q a = true) :
    (l.filter p).length ≤ (l.filter q).length := by
  induction l with
  | nil => simp
  | cons a t ih =>
    have iht := ih (fun x hx hpx => h x (by simp [hx]) hpx)
    simp only [List.filter_cons]
    by_cases hp : p a = true
    · rw [if_pos hp, if_pos (h a (by simp) hp)]
      simpa using iht
    · rw [if_neg hp]
      by_cases hq : q a = true
      · rw [if_pos hq]
        simp only [List.length_cons]
        omega
      · rw [if_neg hq]
        exact iht

lemma filter_id_len_le_one {l : List YearRow}
    (hnd : (l.map (fun y => y.id)).Nodup) (t : Nat) :
    (l.filter (fun y => y.id == t)).length ≤ 1 := by
  induction l with
  | nil => simp
  | cons a r ih =>
    simp only [List.map_cons, List.nodup_cons] at hnd
    simp only [List.filter_cons]
    by_cases ha : (a.id == t) = true
    · rw [if_pos ha]
      have hr : r.filter (fun y => y.id == t) = [] := by
        rw [List.filter_eq_nil]
        intro y hy hc
        have hyt : y.id = t := by simpa using hc
        have hat : a.id = t := by simpa using ha
        exact hnd.1 ((hyt.trans hat.symm) ▸ List.mem_map_of_mem (fun y => y.id) hy)
      simp [hr]
    · rw [if_neg ha]
      exact Nat.le_trans (ih hnd.2) (Nat.le_refl 1)

lemma filter_map_length {α β} (f : α → β) (p : β → Bool) (l : List α) :
    ((l.map f).filter p).length = (l.filter (fun a => p (f a))).length := by
  induction l with
  | nil => rfl
  | cons a t ih =>
    simp only [List.map_cons, List.filter_cons]
    by_cases hp : p (f a) = true
    · rw [if_pos hp, if_pos hp]
      simp [ih]
    · rw [if_neg hp, if_neg hp]
      exact ih

lemma map_ids_of_preserve {l : List YearRow} {f : YearRow → YearRow}
    (h : ∀ y, (f y).id = y.id) :
    (l.map f).map (fun y => y.id) = l.map (fun y => y.id) := by
  induction l with
  | nil => rfl
  | cons a t ih => simp [h, ih]

lemma applyYearUpdate_id (d : YearUpdate) (y : YearRow) :
    (applyYearUpdate d y).id = y.id := by
  unfold applyYearUpdate
  cases d.name <;> cases d.is_active <;> cases d.enrollment_open <;>
    cases d.transition_date <;> rfl

lemma applyYearUpdate_active (d : YearUpdate) (y : YearRow) :
    (applyYearUpdate d y).is_active =
      (match d.is_active with | some b => b | none => y.is_active) := by
  unfold applyYearUpdate
  cases d.name <;> cases d.is_active <;> cases d.enrollment_open <;>
    cases d.transition_date <;> rfl

lemma activeCount_nil_of_all_inactive {l : List YearRow}
    (h : ∀ y ∈ l, y.is_active = false) : activeCount l = 0 := by
  unfold activeCount
  rw [List.filter_eq_nil.mpr (fun y hy => by simp [h y hy])]
  rfl

lemma activeCount_append (l r : List YearRow) :
    activeCount (l ++ r) = activeCount l + activeCount r := by
  unfold activeCount
  rw [List.filter_append, List.length_append]

lemma filter_id_length_map {l : List YearRow} {f : YearRow → YearRow}
    (h : ∀ y, (f y).id = y.id) (t : Nat) :
    ((l.map f).filter (fun y => y.id == t)).length =
      (l.filter (fun y => y.id == t)).length := by
  rw [filter_map_length]
  have : l.filter (fun a => (f a).id == t) = l.filter (fun y => y.id == t) := by
    apply List.filter_congr
    intro a _
    rw [h]
  rw [this]

lemma activeCount_le_one_of_imp {l' l : List YearRow} (t : Nat)
    (hnd : (l.map (fun y => y.id)).Nodup)
    (hlen : (l'.filter (fun y => y.id == t)).length =
            (l.filter (fun y => y.id == t)).length)
    (himp : ∀ y ∈ l', y.is_active = true → (y.id == t) = true) :
    activeCount l' ≤ 1 := by
  unfold activeCount
  calc (l'.filter (fun y => y.is_active)).length
      ≤ (l'.filter (fun y => y.id == t)).length := length_filter_mono l' himp
    _ = (l.filter (fun y => y.id == t)).length := hlen
    _ ≤ 1 := filter_id_len_le_one hnd t

lemma filter_id_length_of_map_ids {l l' : List YearRow}
    (h : l'.map (fun y => y.id) = l.map (fun y => y.id)) (t : Nat) :
    (l'.filter (fun y => y.id == t)).length =
      (l.filter (fun y => y.id == t)).length := by
  have h1 := filter_map_length (fun y : YearRow => y.id) (fun i => i == t) l'
  have h2 := filter_map_length (fun y : YearRow => y.id) (fun i => i == t) l
  rw [h] at h1
  exact h1.symm.trans h2

lemma runYearOp_create_inv (db : SchoolDB) (d : YearCreate) (now : Nat)
    (hwf : SchoolWF db) (h1 : activeCount db.years ≤ 1) :
    SchoolWF (runYearOp db (.create d now)) ∧
      activeCount (runYearOp db (.create d now)).years ≤ 1 := by
  simp only [runYearOp]
  cases hc : create_school_year db d now with
  | error e => exact ⟨hwf, h1⟩
  | ok out =>
    unfold create_school_year at hc
    cases htd : createTransitionDate d (createStartEnd d).1 with
    | error e => rw [htd] at hc; exact absurd hc (by simp)
    | ok td =>
      rw [htd] at hc
      cases hdup : (db.years.filter (fun y => y.name == d.name)).isEmpty with
      | false => rw [hdup] at hc; simp at hc
      | true =>
        rw [hdup] at hc
        simp only [Bool.not_true, Except.ok.injEq] at hc
        simp only [show ((false = true) = False) from by simp, if_false] at hc
        set ys1 := (if d.is_active then deactivateAll db.years else db.years) with hys1
        have hout := Except.ok.inj hc
        have hyears : out.1.years = ys1 ++ [newYearRow db d (createStartEnd d) td now] := by
          rw [← hout]
        have hnext : out.1.nextYearId = db.nextYearId + 1 := by rw [← hout]
        have hids : ys1.map (fun y => y.id) = db.years.map (fun y => y.id) := by
          rw [hys1]
          by_cases hact : d.is_active
          · rw [if_pos hact]
            unfold deactivateAll
            exact map_ids_of_preserve (fun y => by by_cases hy : y.is_active <;> simp [hy])
          · rw [if_neg hact]
        constructor
        · constructor
          · rw [hyears, List.map_append, hids]
            simp only [List.map_cons, List.map_nil]
            rw [List.nodup_append]
            refine ⟨hwf.1, List.nodup_singleton _, ?_⟩
            intro a ha hb
            have hb' : a = db.nextYearId := by simpa [newYearRow] using hb
            rcases List.mem_map.mp ha with ⟨z, hz, hze⟩
            have hze' : z.id = a := hze
            have hza := hwf.2 z hz
            omega
          · intro y hy
            rw [hnext]
            rw [hyears] at hy
            rcases List.mem_append.mp hy with hy' | hy'
            · have hmem : y.id ∈ db.years.map (fun y => y.id) := by
                rw [← hids]
                exact List.mem_map_of_mem _ hy'
              rcases List.mem_map.mp hmem with ⟨z, hz, hze⟩
              have hze' : z.id = y.id := hze
              have hza := hwf.2 z hz
              omega
            · simp only [List.mem_singleton] at hy'
              subst hy'
              simp [newYearRow]
        · rw [hyears, activeCount_append]
          by_cases hact : d.is_active = true
          · have hz : activeCount ys1 = 0 := by
              rw [hys1, if_pos hact]
              apply activeCount_nil_of_all_inactive
              intro y hy
              unfold deactivateAll at hy
              rcases List.mem_map.mp hy with ⟨z, _, rfl⟩
              by_cases hzz : z.is_active <;> simp [hzz]
            have hone : activeCount [newYearRow db d (createStartEnd d) td now] ≤ 1 := by
              unfold activeCount
              simp only [List.filter_cons, List.filter_nil]
              split <;> simp
            omega
          · have hact' : d.is_active = false := by simpa using hact
            have hys : ys1 = db.years := by rw [hys1, hact']; simp
            have hzero : activeCount [newYearRow db d (createStartEnd d) td now] = 0 := by
              unfold activeCount
              simp [List.filter_cons, newYearRow, hact']
            rw [hys, hzero]
            omega

lemma runYearOp_update_inv (db : SchoolDB) (yid : Nat) (d : YearUpdate)
    (hwf : SchoolWF db) (h1 : activeCount db.years ≤ 1) :
    SchoolWF (runYearOp db (.update yid d)) ∧
      activeCount (runYearOp db (.update yid d)).years ≤ 1 := by
  simp only [runYearOp]
  cases hc : update_school_year db yid d with
  | error e => exact ⟨hwf, h1⟩
  | ok out =>
    unfold update_school_year at hc
    cases hf : db.years.find? (fun y => y.id == yid) with
    | none => rw [hf] at hc; exact absurd hc (by simp)
    | some found =>
      rw [hf] at hc
      simp only [Except.ok.injEq] at hc
      set ys1 := (if d.is_active == some true then
          db.years.map (fun y =>
            if y.is_active && !(y.id == yid) then { y with is_active := false } else y)
        else db.years) with hys1
      have hyears : out.years =
          ys1.map (fun y => if y.id == yid then applyYearUpdate d y else y) := by
        rw [← hc]
      have hnext : out.nextYearId = db.nextYearId := by rw [← hc]
      clear hc
      have hids1 : ys1.map (fun y => y.id) = db.years.map (fun y => y.id) := by
        rw [hys1]
        by_cases hcase : (d.is_active == some true) = true
        · rw [if_pos hcase]
          exact map_ids_of_preserve (fun y => by
            by_cases hy : (y.is_active && !(y.id == yid)) = true <;> simp [hy])
        · rw [if_neg hcase]
      have hf2id : ∀ y : YearRow,
          ((fun y => if y.id == yid then applyYearUpdate d y else y) y).id = y.id := by
        intro y
        by_cases hy : (y.id == yid) = true
        · simp [hy, applyYearUpdate_id]
        · simp [hy]
      have hids : out.years.map (fun y => y.id) = db.years.map (fun y => y.id) := by
        rw [hyears, map_ids_of_preserve hf2id, hids1]
      have hlen : (out.years.filter (fun y => y.id == yid)).length =
          (db.years.filter (fun y => y.id == yid)).length := by
        rw [hyears, filter_id_length_map hf2id, hys1]
        by_cases hcase : (d.is_active == some true) = true
        · rw [if_pos hcase]
          exact filter_id_length_map (fun y => by
            by_cases hy : (y.is_active && !(y.id == yid)) = true <;> simp [hy]) yid
        · rw [if_neg hcase]
      refine ⟨⟨by rw [hids]; exact hwf.1, ?_⟩, ?_⟩
      · intro y hy
        rw [hnext]
        have hmem : y.id ∈ db.years.map (fun z => z.id) := by
          rw [← hids]
          exact List.mem_map_of_mem _ hy
        rcases List.mem_map.mp hmem with ⟨z, hz, hze⟩
        have hze' : z.id = y.id := hze
        have hza := hwf.2 z hz
        omega
      · by_cases hcase : d.is_active = some true
        · -- setting active: every active row of the result carries id `yid`
          refine activeCount_le_one_of_imp yid hwf.1 hlen ?_
          intro y hy hact
          rw [hyears] at hy
          rcases List.mem_map.mp hy with ⟨z, hz, rfl⟩
          by_cases hzid : (z.id == yid) = true
          · simp [hzid, applyYearUpdate_id]
          · rw [if_neg hzid] at hact ⊢
            rw [hys1, if_pos (by simp [hcase])] at hz
            rcases List.mem_map.mp hz with ⟨w, hw, rfl⟩
            by_cases hwa : (w.is_active && !(w.id == yid)) = true
            · rw [if_pos hwa] at hact
              simp at hact
            · rw [if_neg hwa] at hact hzid
              have hwact : w.is_active = true := hact
              have : ¬ (w.id == yid) = false := by
                intro hfalse
                exact hwa (by simp [hwact, hfalse])
              exact absurd (Bool.eq_false_iff.mpr hzid) this
        · -- not setting active: activity only shrinks
          have hysid : ys1 = db.years := by
            rw [hys1, if_neg (by simpa using hcase)]
          rw [hyears, hysid]
          unfold activeCount
          calc ((db.years.map (fun y => if y.id == yid then applyYearUpdate d y else y)).filter
                  (fun y => y.is_active)).length
              = (db.years.filter (fun a =>
                  ((fun y => if y.id == yid then applyYearUpdate d y else y) a).is_active)).length := by
                rw [filter_map_length]
            _ ≤ (db.years.filter (fun y => y.is_active)).length := by
                apply length_filter_mono
                intro a _ hact
                dsimp only at hact
                by_cases ha : (a.id == yid) = true
                · rw [if_pos ha] at hact
                  rw [applyYearUpdate_active] at hact
                  cases hda : d.is_active with
                  | none => rw [hda] at hact; exact hact
                  | some b =>
                    rw [hda] at hact
                    cases b with
                    | true => exact absurd hda hcase
                    | false => simp at hact
                · rw [if_neg ha] at hact
                  exact hact
            _ ≤ 1 := h1

lemma runYearOp_transition_inv (db : SchoolDB) (t : Nat)
    (hwf : SchoolWF db) (h1 : activeCount db.years ≤ 1) :
    SchoolWF (runYearOp db (.transition t)) ∧
      activeCount (runYearOp db (.transition t)).years ≤ 1 := by
  simp only [runYearOp]
  cases hc : transition_school_year db t with
  | error e => exact ⟨hwf, h1⟩
  | ok out =>
    unfold transition_school_year at hc
    cases hf : db.years.find? (fun y => y.id == t) with
    | none => rw [hf] at hc; exact absurd hc (by simp)
    | some found =>
      rw [hf] at hc
      have hactid : ∀ y : YearRow,
          ((fun y => if y.id == t then { y with is_active := true, is_current := true } else y) y).id
            = y.id := by
        intro y
        by_cases hy : (y.id == t) = true <;> simp [hy]
      -- the three success branches all produce `activateYear base t` for a base
      -- with the same ids and with no active row outside id `t`
      have main : ∀ base : List YearRow,
          base.map (fun y => y.id) = db.years.map (fun y => y.id) →
          (∀ y ∈ base, y.is_active = true → (y.id == t) = true) →
          out = { db with years := activateYear base t } →
          SchoolWF out ∧ activeCount out.years ≤ 1 := by
        intro base hbids hbact hout
        have houty : out.years = activateYear base t := by rw [hout]
        have houtn : out.nextYearId = db.nextYearId := by rw [hout]
        have hids : out.years.map (fun y => y.id) = db.years.map (fun y => y.id) := by
          rw [houty]
          unfold activateYear
          rw [map_ids_of_preserve hactid, hbids]
        refine ⟨⟨by rw [hids]; exact hwf.1, ?_⟩, ?_⟩
        · intro y hy
          rw [houtn]
          have hmem : y.id ∈ db.years.map (fun z => z.id) := by
            rw [← hids]
            exact List.mem_map_of_mem _ hy
          rcases List.mem_map.mp hmem with ⟨z, hz, hze⟩
          have hze' : z.id = y.id := hze
          have hza := hwf.2 z hz
          omega
        · refine activeCount_le_one_of_imp t hwf.1 ?_ ?_
          · rw [houty]
            unfold activateYear
            rw [filter_id_length_map hactid]
            exact filter_id_length_of_map_ids hbids t
          · intro y hy hact
            rw [houty] at hy
            unfold activateYear at hy
            rcases List.mem_map.mp hy with ⟨z, hz, rfl⟩
            by_cases hzid : (z.id == t) = true
            · simp [hzid]
            · rw [if_neg hzid] at hact ⊢
              exact hbact z hz hact
      cases hfil : db.years.filter (fun y => y.is_active) with
      | nil =>
        rw [hfil] at hc
        simp only [Except.ok.injEq] at hc
        refine main db.years rfl ?_ hc.symm
        intro y hy hact
        have : y ∈ db.years.filter (fun y => y.is_active) := List.mem_filter.mpr ⟨hy, hact⟩
        rw [hfil] at this
        simp at this
      | cons old rest =>
        cases rest with
        | nil =>
          rw [hfil] at hc
          have hold : ∀ y ∈ db.years, y.is_active = true → y = old := by
            intro y hy hact
            have : y ∈ db.years.filter (fun y => y.is_active) := List.mem_filter.mpr ⟨hy, hact⟩
            rw [hfil] at this
            simpa using this
          dsimp only at hc
          by_cases hoid : (!(old.id == t)) = true
          · rw [if_pos hoid] at hc
            simp only [Except.ok.injEq] at hc
            refine main (deactivateYear db.years old.id) ?_ ?_ hc.symm
            · unfold deactivateYear
              exact map_ids_of_preserve (fun y => by
                by_cases hy : (y.id == old.id) = true <;> simp [hy])
            · intro y hy hact
              unfold deactivateYear at hy
              rcases List.mem_map.mp hy with ⟨z, hz, rfl⟩
              by_cases hzid : (z.id == old.id) = true
              · rw [if_pos hzid] at hact
                simp at hact
              · rw [if_neg hzid] at hact ⊢
                have := hold z hz hact
                subst this
                simp at hzid
          · rw [if_neg hoid] at hc
            simp only [Except.ok.injEq] at hc
            refine main db.years rfl ?_ hc.symm
            intro y hy hact
            have := hold y hy hact
            subst this
            simpa using hoid
        | cons b rest2 =>
          rw [hfil] at hc
          exact absurd hc (by simp)

/-- C4.  At-most-one-active-year invariant: from any well-formed store in
which at most one academic year is active, any finite sequence of
`create_school_year`, `update_school_year`, and `transition_school_year`
calls leaves at most one academic year active (each operation that sets a
year active first clears `is_active` on every other year; calls that raise
commit nothing). -/
theorem at_most_one_active_year (db : SchoolDB) (ops : List YearOp)
    (hwf : SchoolWF db) (h1 : activeCount db.years ≤ 1) :
    activeCount (runYearOps db ops).years ≤ 1 := by
  induction ops generalizing db with
  | nil => exact h1
  | cons op rest ih =>
    have hstep : SchoolWF (runYearOp db op) ∧ activeCount (runYearOp db op).years ≤ 1 := by
      cases op with
      | create d now => exact runYearOp_create_inv db d now hwf h1
      | update yid d => exact runYearOp_update_inv db yid d hwf h1
      | transition t => exact runYearOp_transition_inv db t hwf h1
    exact ih (runYearOp db op) hstep.1 hstep.2

/-- Witness for C4: starting from the empty store, creating an active year,
creating a second active year, updating the first back to active, and
transitioning to the second leaves at most one active year. -/
theorem at_most_one_active_year_witness :
    activeCount (runYearOps ⟨[], 1⟩
      [.create ⟨"2024-2025", true, some 2024, some 2025, true, true, none⟩ 0,
       .create ⟨"2025-2026", true, some 2025, some 2026, true, true, none⟩ 1,
       .update 1 ⟨none, some true, none, none⟩,
       .transition 2]).years ≤ 1 :=
  at_most_one_active_year ⟨[], 1⟩ _ (by constructor <;> simp) (by simp [activeCount])

/-! ### List helpers for the reconciliation proofs -/

lemma map_proj_of_preserve {α β : Type} (pj : α → β) {l : List α} {f : α → α}
    (h : ∀ x, pj (f x) = pj x) : (l.map f).map pj = l.map pj := by
  induction l with
  | nil => rfl
  | cons a t ih => simp [h, ih]

lemma filter_of_map {α β : Type} (f : α → β) (p : β → Bool) (l : List α) :
    (l.map f).filter p = (l.filter (fun a => p (f a))).map f := by
  induction l with
  | nil => rfl
  | cons a t ih =>
    simp only [List.map_cons, List.filter_cons]
    by_cases hp : p (f a) = true
    · rw [if_pos hp, if_pos hp, List.map_cons, ih]
    · rw [if_neg hp, if_neg hp, ih]

lemma contains_eq_mem {l : List Nat} {a : Nat} : l.contains a = true ↔ a ∈ l := by
  induction l with
  | nil => simp
  | cons x t ih =>
    simp only [List.contains_cons, Bool.or_eq_true, beq_iff_eq, List.mem_cons, ih]

lemma filter_single_of_nodup {α : Type} (idf : α → Nat) {l : List α}
    (hnd : (l.map idf).Nodup) {r : α} (hr : r ∈ l) {A : Nat} (hid : idf r = A) :
    l.filter (fun x => idf x == A) = [r] := by
  induction l with
  | nil => simp at hr
  | cons a t ih =>
    simp only [List.map_cons, List.nodup_cons] at hnd
    rcases List.mem_cons.mp hr with rfl | hr'
    · simp only [List.filter_cons, hid, beq_self_eq_true, if_pos]
      have : t.filter (fun x => idf x == A) = [] := by
        rw [List.filter_eq_nil]
        intro x hx hc
        have hxa : idf x = A := by simpa using hc
        exact hnd.1 (by rw [hid, ← hxa]; exact List.mem_map_of_mem idf hx)
      rw [this]
    · have hne : (idf a == A) = false := by
        apply beq_false_of_ne
        intro hc
        exact hnd.1 (by rw [hc, ← hid]; exact List.mem_map_of_mem idf hr')
      simp only [List.filter_cons, hne]
      simp only [Bool.false_eq_true, if_false]
      exact ih hnd.2 hr'

lemma nodup_proj_inj {α : Type} (idf : α → Nat) {l : List α}
    (hnd : (l.map idf).Nodup) {x y : α} (hx : x ∈ l) (hy : y ∈ l)
    (he : idf x = idf y) : x = y := by
  induction l with
  | nil => simp at hx
  | cons a t ih =>
    simp only [List.map_cons, List.nodup_cons] at hnd
    rcases List.mem_cons.mp hx with rfl | hx'
    · rcases List.mem_cons.mp hy with rfl | hy'
      · rfl
      · exact absurd (he ▸ List.mem_map_of_mem idf hy') hnd.1
    · rcases List.mem_cons.mp hy with rfl | hy'
      · exact absurd (he ▸ List.mem_map_of_mem idf hx') hnd.1
      · exact ih hnd.2 hx' hy'

lemma find?_id_of_mem {α : Type} (idf : α → Nat) {l : List α} {u : Nat}
    (h : u ∈ l.map idf) : ∃ r, l.find? (fun x => idf x == u) = some r := by
  rcases List.mem_map.mp h with ⟨r, hr, hid⟩
  have : (l.find? (fun x => idf x == u)).isSome := by
    rw [List.find?_isSome]
    exact ⟨r, hr, by simpa using hid⟩
  exact Option.isSome_iff_exists.mp this

/-! ### Guardian-phase lemmas -/

lemma existingGuardianIds_sub (db : DB) (req : Request) (famId : Nat) :
    ∀ u ∈ existingGuardianIds db req famId, u ∈ db.guardians.map (fun g => g.id) := by
  intro u hu
  unfold existingGuardianIds at hu
  by_cases h : req.family_id.isSome
  · rw [if_pos h] at hu
    rcases List.mem_map.mp hu with ⟨g, hg, rfl⟩
    exact List.mem_map_of_mem _ (List.mem_of_mem_filter hg)
  · rw [if_neg h] at hu
    simp at hu

lemma processGuardians_ok (famId : Nat) (ex : List Nat) :
    ∀ (subs : List GuardianSub) (db : DB) (kept : List Nat),
      (∀ u ∈ ex, u ∈ db.guardians.map (fun g => g.id)) →
      ∃ out, processGuardians famId ex db subs kept = .ok out := by
  intro subs
  induction subs with
  | nil => intro db kept hex; exact ⟨(db, kept), rfl⟩
  | cons g rest ih =>
    intro db kept hex
    unfold processGuardians
    have hexIns : ∀ u ∈ ex,
        u ∈ (db.guardians ++
          [(⟨db.nextId, famId, g.fields⟩ : GuardianRow)]).map (fun g => g.id) := by
      intro u hu
      rw [List.map_append]
      exact List.mem_append_left _ (hex u hu)
    cases hpu : try_parse_uuid g.sid with
    | none => exact ih _ _ hexIns
    | some u =>
      dsimp only
      by_cases hm : u ∈ ex
      · rw [if_pos hm]
        rcases find?_id_of_mem (fun g : GuardianRow => g.id) (hex u hm) with ⟨r, hr⟩
        rw [hr]
        apply ih
        intro v hv
        rw [map_proj_of_preserve (fun g : GuardianRow => g.id)
          (fun x => by by_cases hx : (x.id == u) = true <;> simp [hx])]
        exact hex v hv
      · rw [if_neg hm]
        exact ih _ _ hexIns

lemma processGuardians_frame (famId : Nat) (ex : List Nat) :
    ∀ (subs : List GuardianSub) (db : DB) (kept : List Nat) (out : DB × List Nat),
      processGuardians famId ex db subs kept = .ok out →
      out.1.families = db.families ∧ out.1.students = db.students ∧
      out.1.emergency_contacts = db.emergency_contacts ∧
      out.1.programs = db.programs ∧ out.1.classes = db.classes ∧
      out.1.enrollments = db.enrollments ∧ db.nextId ≤ out.1.nextId := by
  intro subs
  induction subs with
  | nil =>
    intro db kept out h
    unfold processGuardians at h
    have := Except.ok.inj h
    subst this
    exact ⟨rfl, rfl, rfl, rfl, rfl, rfl, Nat.le_refl _⟩
  | cons g rest ih =>
    intro db kept out h
    unfold processGuardians at h
    cases hpu : try_parse_uuid g.sid with
    | none =>
      rw [hpu] at h
      have := ih _ _ _ h
      exact ⟨this.1, this.2.1, this.2.2.1, this.2.2.2.1, this.2.2.2.2.1,
             this.2.2.2.2.2.1, le_trans (Nat.le_succ _) this.2.2.2.2.2.2⟩
    | some u =>
      rw [hpu] at h
      dsimp only at h
      by_cases hm : u ∈ ex
      · rw [if_pos hm] at h
        cases hf : db.guardians.find? (fun row => row.id == u) with
        | none => rw [hf] at h; exact absurd h (by simp)
        | some r =>
          rw [hf] at h
          dsimp only at h
          have hres := ih _ _ _ h
          exact hres
      · rw [if_neg hm] at h
        have := ih _ _ _ h
        exact ⟨this.1, this.2.1, this.2.2.1, this.2.2.2.1, this.2.2.2.2.1,
               this.2.2.2.2.2.1, le_trans (Nat.le_succ _) this.2.2.2.2.2.2⟩

lemma guardianPhase_ok (db : DB) (req : Request) (famId : Nat) :
    ∃ db', guardianPhase db req famId = .ok db' := by
  unfold guardianPhase
  rcases processGuardians_ok famId (existingGuardianIds db req famId) req.guardians db []
      (existingGuardianIds_sub db req famId) with ⟨out, hout⟩
  rw [hout]
  exact ⟨_, rfl⟩

lemma guardianPhase_frame (db : DB) (req : Request) (famId : Nat) (db' : DB)
    (h : guardianPhase db req famId = .ok db') :
    db'.families = db.families ∧ db'.students = db.students ∧
    db'.emergency_contacts = db.emergency_contacts ∧
    db'.programs = db.programs ∧ db'.classes = db.classes ∧
    db'.enrollments = db.enrollments ∧ db.nextId ≤ db'.nextId := by
  unfold guardianPhase at h
  cases hp : processGuardians famId (existingGuardianIds db req famId) db req.guardians [] with
  | error e => rw [hp] at h; exact absurd h (by simp)
  | ok out =>
    rw [hp] at h
    have hframe := processGuardians_frame famId _ _ _ _ _ hp
    have hdel := Except.ok.inj h
    subst hdel
    exact hframe

/-! ### Student-phase lemmas -/

lemma existingStudentIds_sub (db : DB) (req : Request) (famId : Nat) :
    ∀ u ∈ existingStudentIds db req famId, u ∈ db.students.map (fun s => s.id) := by
  intro u hu
  unfold existingStudentIds at hu
  by_cases h : req.family_id.isSome
  · rw [if_pos h] at hu
    rcases List.mem_map.mp hu with ⟨g, hg, rfl⟩
    exact List.mem_map_of_mem _ (List.mem_of_mem_filter hg)
  · rw [if_neg h] at hu
    simp at hu

lemma processStudents_ok (famId : Nat) (ex : List Nat) :
    ∀ (subs : List StudentSub) (db : DB) (m : SMap) (kept : List Nat),
      (∀ u ∈ ex, u ∈ db.students.map (fun s => s.id)) →
      ∃ out, processStudents famId ex db subs m kept = .ok out := by
  intro subs
  induction subs with
  | nil => intro db m kept hex; exact ⟨(db, m, kept), rfl⟩
  | cons sd rest ih =>
    intro db m kept hex
    unfold processStudents
    have hexIns : ∀ u ∈ ex,
        u ∈ (db.students ++
          [(⟨db.nextId, famId, sd.toFields⟩ : StudentRow)]).map (fun s => s.id) := by
      intro u hu
      rw [List.map_append]
      exact List.mem_append_left _ (hex u hu)
    cases hpu : try_parse_uuid sd.sid with
    | none => exact ih _ _ _ hexIns
    | some u =>
      dsimp only
      by_cases hm : u ∈ ex
      · rw [if_pos hm]
        rcases find?_id_of_mem (fun s : StudentRow => s.id) (hex u hm) with ⟨r, hr⟩
        rw [hr]
        apply ih
        intro v hv
        rw [map_proj_of_preserve (fun s : StudentRow => s.id)
          (fun x => by by_cases hx : (x.id == u) = true <;> simp [hx])]
        exact hex v hv
      · rw [if_neg hm]
        exact ih _ _ _ hexIns

lemma processStudents_frame (famId : Nat) (ex : List Nat) :
    ∀ (subs : List StudentSub) (db : DB) (m : SMap) (kept : List Nat)
      (out : DB × SMap × List Nat),
      processStudents famId ex db subs m kept = .ok out →
      out.1.families = db.families ∧ out.1.guardians = db.guardians ∧
      out.1.emergency_contacts = db.emergency_contacts ∧
      out.1.programs = db.programs ∧ out.1.classes = db.classes ∧
      out.1.enrollments = db.enrollments ∧ db.nextId ≤ out.1.nextId := by
  intro subs
  induction subs with
  | nil =>
    intro db m kept out h
    unfold processStudents at h
    have := Except.ok.inj h
    subst this
    exact ⟨rfl, rfl, rfl, rfl, rfl, rfl, Nat.le_refl _⟩
  | cons sd rest ih =>
    intro db m kept out h
    unfold processStudents at h
    cases hpu : try_parse_uuid sd.sid with
    | none =>
      rw [hpu] at h
      have hres := ih _ _ _ _ h
      exact ⟨hres.1, hres.2.1, hres.2.2.1, hres.2.2.2.1, hres.2.2.2.2.1,
             hres.2.2.2.2.2.1, le_trans (Nat.le_succ _) hres.2.2.2.2.2.2⟩
    | some u =>
      rw [hpu] at h
      dsimp only at h
      by_cases hm : u ∈ ex
      · rw [if_pos hm] at h
        cases hf : db.students.find? (fun row => row.id == u) with
        | none => rw [hf] at h; exact absurd h (by simp)
        | some r =>
          rw [hf] at h
          dsimp only at h
          have hres := ih _ _ _ _ h
          exact hres
      · rw [if_neg hm] at h
        have hres := ih _ _ _ _ h
        exact ⟨hres.1, hres.2.1, hres.2.2.1, hres.2.2.2.1, hres.2.2.2.2.1,
               hres.2.2.2.2.2.1, le_trans (Nat.le_succ _) hres.2.2.2.2.2.2⟩

lemma studentPhase_ok (db : DB) (req : Request) (famId : Nat) :
    ∃ out, studentPhase db req famId = .ok out := by
  unfold studentPhase
  rcases processStudents_ok famId (existingStudentIds db req famId) req.students db [] []
      (existingStudentIds_sub db req famId) with ⟨out, hout⟩
  rw [hout]
  exact ⟨_, rfl⟩

lemma studentPhase_frame (db : DB) (req : Request) (famId : Nat)
    (out : DB × SMap) (h : studentPhase db req famId = .ok out) :
    out.1.families = db.families ∧ out.1.guardians = db.guardians ∧
    out.1.emergency_contacts = db.emergency_contacts ∧
    out.1.programs = db.programs ∧ out.1.classes = db.classes ∧
    db.nextId ≤ out.1.nextId := by
  unfold studentPhase at h
  cases hp : processStudents famId (existingStudentIds db req famId) db req.students [] [] with
  | error e => rw [hp] at h; exact absurd h (by simp)
  | ok pout =>
    rw [hp] at h
    have hframe := processStudents_frame famId _ _ _ _ _ _ hp
    have hdel := Except.ok.inj h
    subst hdel
    exact ⟨hframe.1, hframe.2.1, hframe.2.2.1, hframe.2.2.2.1, hframe.2.2.2.2.1,
           hframe.2.2.2.2.2.2⟩

/-! ### Emergency-contact-phase lemmas -/

lemma existingEcIds_sub (db : DB) (req : Request) (famId : Nat) :
    ∀ u ∈ existingEcIds db req famId,
      u ∈ db.emergency_contacts.map (fun c => c.id) := by
  intro u hu
  unfold existingEcIds at hu
  by_cases h : req.family_id.isSome
  · rw [if_pos h] at hu
    rcases List.mem_map.mp hu with ⟨g, hg, rfl⟩
    exact List.mem_map_of_mem _ (List.mem_of_mem_filter hg)
  · rw [if_neg h] at hu
    simp at hu

lemma processEcs_ok (famId : Nat) (ex : List Nat) :
    ∀ (subs : List ECSub) (db : DB) (kept : List Nat),
      (∀ u ∈ ex, u ∈ db.emergency_contacts.map (fun c => c.id)) →
      ∃ out, processEcs famId ex db subs kept = .ok out := by
  intro subs
  induction subs with
  | nil => intro db kept hex; exact ⟨(db, kept), rfl⟩
  | cons c rest ih =>
    intro db kept hex
    unfold processEcs
    have hexIns : ∀ u ∈ ex,
        u ∈ (db.emergency_contacts ++
          [(⟨db.nextId, famId, c.fields⟩ : ECRow)]).map (fun c => c.id) := by
      intro u hu
      rw [List.map_append]
      exact List.mem_append_left _ (hex u hu)
    cases hpu : try_parse_uuid c.sid with
    | none => exact ih _ _ hexIns
    | some u =>
      dsimp only
      by_cases hm : u ∈ ex
      · rw [if_pos hm]
        rcases find?_id_of_mem (fun c : ECRow => c.id) (hex u hm) with ⟨r, hr⟩
        rw [hr]
        apply ih
        intro v hv
        rw [map_proj_of_preserve (fun c : ECRow => c.id)
          (fun x => by by_cases hx : (x.id == u) = true <;> simp [hx])]
        exact hex v hv
      · rw [if_neg hm]
        exact ih _ _ hexIns

lemma processEcs_frame (famId : Nat) (ex : List Nat) :
    ∀ (subs : List ECSub) (db : DB) (kept : List Nat) (out : DB × List Nat),
      processEcs famId ex db subs kept = .ok out →
      out.1.families = db.families ∧ out.1.guardians = db.guardians ∧
      out.1.students = db.students ∧
      out.1.programs = db.programs ∧ out.1.classes = db.classes ∧
      out.1.enrollments = db.enrollments ∧ db.nextId ≤ out.1.nextId := by
  intro subs
  induction subs with
  | nil =>
    intro db kept out h
    unfold processEcs at h
    have := Except.ok.inj h
    subst this
    exact ⟨rfl, rfl, rfl, rfl, rfl, rfl, Nat.le_refl _⟩
  | cons c rest ih =>
    intro db kept out h
    unfold processEcs at h
    cases hpu : try_parse_uuid c.sid with
    | none =>
      rw [hpu] at h
      have hres := ih _ _ _ h
      exact ⟨hres.1, hres.2.1, hres.2.2.1, hres.2.2.2.1, hres.2.2.2.2.1,
             hres.2.2.2.2.2.1, le_trans (Nat.le_succ _) hres.2.2.2.2.2.2⟩
    | some u =>
      rw [hpu] at h
      dsimp only at h
      by_cases hm : u ∈ ex
      · rw [if_pos hm] at h
        cases hf : db.emergency_contacts.find? (fun row => row.id == u) with
        | none => rw [hf] at h; exact absurd h (by simp)
        | some r =>
          rw [hf] at h
          dsimp only at h
          have hres := ih _ _ _ h
          exact hres
      · rw [if_neg hm] at h
        have hres := ih _ _ _ h
        exact ⟨hres.1, hres.2.1, hres.2.2.1, hres.2.2.2.1, hres.2.2.2.2.1,
               hres.2.2.2.2.2.1, le_trans (Nat.le_succ _) hres.2.2.2.2.2.2⟩

lemma ecPhase_ok (db : DB) (req : Request) (famId : Nat) :
    ∃ db', ecPhase db req famId = .ok db' := by
  unfold ecPhase
  rcases processEcs_ok famId (existingEcIds db req famId) req.emergency_contacts db []
      (existingEcIds_sub db req famId) with ⟨out, hout⟩
  rw [hout]
  exact ⟨_, rfl⟩

lemma ecPhase_frame (db : DB) (req : Request) (famId : Nat) (db' : DB)
    (h : ecPhase db req famId = .ok db') :
    db'.families = db.families ∧ db'.guardians = db.guardians ∧
    db'.students = db.students ∧
    db'.programs = db.programs ∧ db'.classes = db.classes ∧
    db'.enrollments = db.enrollments ∧ db.nextId ≤ db'.nextId := by
  unfold ecPhase at h
  cases hp : processEcs famId (existingEcIds db req famId) db req.emergency_contacts [] with
  | error e => rw [hp] at h; exact absurd h (by simp)
  | ok out =>
    rw [hp] at h
    have hframe := processEcs_frame famId _ _ _ _ _ hp
    have hdel := Except.ok.inj h
    subst hdel
    exact hframe

/-! ### Enrollment-phase lemmas -/

lemma clearEnrollments_frame (yc : List Nat) (m : SMap) :
    ∀ (subs : List StudentSub) (db : DB),
      (clearEnrollments yc m db subs).families = db.families ∧
      (clearEnrollments yc m db subs).guardians = db.guardians ∧
      (clearEnrollments yc m db subs).students = db.students ∧
      (clearEnrollments yc m db subs).emergency_contacts = db.emergency_contacts ∧
      (clearEnrollments yc m db subs).programs = db.programs ∧
      (clearEnrollments yc m db subs).classes = db.classes ∧
      (clearEnrollments yc m db subs).nextId = db.nextId := by
  intro subs
  induction subs with
  | nil => intro db; exact ⟨rfl, rfl, rfl, rfl, rfl, rfl, rfl⟩
  | cons sd rest ih =>
    intro db
    unfold clearEnrollments
    cases hg : mapGet m sd.sid with
    | none => exact ih db
    | some sid => exact ih _

lemma clearEnrollments_mem (yc : List Nat) (m : SMap) :
    ∀ (subs : List StudentSub) (db : DB) (e : EnrollmentRow),
      (e ∈ (clearEnrollments yc m db subs).enrollments ↔
        e ∈ db.enrollments ∧
        ∀ sd ∈ subs, ∀ sid, mapGet m sd.sid = some sid →
          ¬(e.student_id = some sid ∧ classIdInYear yc e = true)) := by
  intro subs
  induction subs with
  | nil =>
    intro db e
    simp [clearEnrollments]
  | cons sd rest ih =>
    intro db e
    unfold clearEnrollments
    cases hg : mapGet m sd.sid with
    | none =>
      rw [ih db]
      constructor
      · rintro ⟨h1, h2⟩
        refine ⟨h1, ?_⟩
        intro x hx sid hsid
        rcases List.mem_cons.mp hx with rfl | hx'
        · rw [hg] at hsid; exact absurd hsid (by simp)
        · exact h2 x hx' sid hsid
      · rintro ⟨h1, h2⟩
        exact ⟨h1, fun x hx sid hsid => h2 x (List.mem_cons_of_mem _ hx) sid hsid⟩
    | some sid0 =>
      rw [ih _]
      constructor
      · rintro ⟨h1, h2⟩
        rw [List.mem_filter] at h1
        refine ⟨h1.1, ?_⟩
        intro x hx sid hsid
        rcases List.mem_cons.mp hx with rfl | hx'
        · rw [hg] at hsid
          have hsid' : sid0 = sid := by injection hsid
          subst hsid'
          intro hcon
          have := h1.2
          simp only [Bool.not_eq_true', Bool.and_eq_false_iff] at this
          rcases this with hh | hh
          · rw [hcon.1] at hh
            simp at hh
          · rw [hcon.2] at hh
            exact absurd hh (by simp)
        · exact h2 x hx' sid hsid
      · rintro ⟨h1, h2⟩
        constructor
        · rw [List.mem_filter]
          refine ⟨h1, ?_⟩
          have hnot := h2 sd (by simp) sid0 hg
          simp only [Bool.not_eq_true']
          rw [Bool.and_eq_false_iff]
          by_cases hes : e.student_id = some sid0
          · right
            by_cases hcy : classIdInYear yc e = true
            · exact absurd ⟨hes, hcy⟩ hnot
            · simpa using hcy
          · left
            simpa using hes
        · intro x hx sid hsid
          exact h2 x (List.mem_cons_of_mem _ hx) sid hsid

lemma createEnrollments_eq (m : SMap) (gl vn : LMap) :
    ∀ (sels : List ClassSelection) (db : DB) (acc : List Nat),
      createEnrollments m gl vn db sels acc =
        ({ db with
           enrollments := db.enrollments ++ derivedEnrollments m gl vn db.nextId sels,
           nextId := db.nextId + (derivedEnrollments m gl vn db.nextId sels).length },
         acc ++ (derivedEnrollments m gl vn db.nextId sels).map (fun e => e.id)) := by
  intro sels
  induction sels with
  | nil =>
    intro db acc
    simp [createEnrollments, derivedEnrollments]
  | cons sel rest ih =>
    intro db acc
    have hstep : createEnrollments m gl vn db (sel :: rest) acc =
        createEnrollments m gl vn (selStep m gl vn (db, acc) sel).1 rest
          (selStep m gl vn (db, acc) sel).2 := rfl
    rw [hstep]
    unfold selStep derivedEnrollments
    cases hres : resolveSel m sel with
    | none =>
      dsimp only
      rw [ih]
    | some sid =>
      cases hg : selOne sel.giao_ly_level gl with
      | none =>
        cases hv : selOne sel.viet_ngu_level vn with
        | none =>
          dsimp only
          rw [ih]
        | some c2 =>
          dsimp only
          rw [ih]
          simp [List.append_assoc, Nat.add_assoc, Nat.add_comm 1]
      | some c1 =>
        cases hv : selOne sel.viet_ngu_level vn with
        | none =>
          dsimp only
          rw [ih]
          simp [List.append_assoc, Nat.add_assoc, Nat.add_comm 1]
        | some c2 =>
          dsimp only
          rw [ih]
          simp only [Prod.mk.injEq]
          constructor
          · simp [List.append_assoc, Nat.add_assoc, Nat.add_comm 2, Nat.add_comm 1]
          · simp [List.append_assoc]

/-! ### Family resolution and body composition -/

lemma resolveFamily_ok (db : DB) (req : Request)
    (hfam : ∀ fid, req.family_id = some fid → ∃ f ∈ db.families, f.id = fid) :
    ∃ db1 fam, resolveFamily db req = .ok (db1, fam) ∧
      (∀ fid, req.family_id = some fid → fam.id = fid) ∧
      db1.guardians = db.guardians ∧ db1.students = db.students ∧
      db1.emergency_contacts = db.emergency_contacts ∧
      db1.programs = db.programs ∧ db1.classes = db.classes ∧
      db1.enrollments = db.enrollments ∧ db.nextId ≤ db1.nextId ∧
      (req.family_id.isSome → db1.nextId = db.nextId) := by
  unfold resolveFamily
  cases hq : req.family_id with
  | none =>
    refine ⟨_, _, rfl, ?_, rfl, rfl, rfl, rfl, rfl, rfl, Nat.le_succ _, ?_⟩
    · intro fid hfid
      exact absurd hfid (by simp)
    · intro hs
      simp_all
  | some fid =>
    rcases hfam fid hq with ⟨f, hf, hfid⟩
    rcases find?_id_of_mem (fun f : FamilyRow => f.id) (by
      exact hfid ▸ List.mem_map_of_mem (fun f : FamilyRow => f.id) hf) with ⟨r, hr⟩
    dsimp only
    rw [hr]
    refine ⟨_, _, rfl, ?_, rfl, rfl, rfl, rfl, rfl, rfl, Nat.le_refl _, fun _ => rfl⟩
    intro fid' hfid'
    have : fid = fid' := by injection hfid'
    subst this
    have := List.find?_some hr
    simpa using this

lemma submitBody_none_eq (db : DB) (req : Request) (db1 : DB) (fam : FamilyRow)
    (db3 db5 : DB) (smap : SMap) (db7 : DB)
    (h1 : resolveFamily db req = .ok (db1, fam))
    (h2 : guardianPhase db1 req fam.id = .ok db3)
    (h3 : studentPhase db3 req fam.id = .ok (db5, smap))
    (h4 : ecPhase db5 req fam.id = .ok db7) :
    submitBody db req none = .ok
      ((createEnrollments smap
          (buildLevelMaps db7 (yearClassesOf db7 req.academic_year_id)).1
          (buildLevelMaps db7 (yearClassesOf db7 req.academic_year_id)).2
          (clearEnrollments ((yearClassesOf db7 req.academic_year_id).map (fun c => c.id))
            smap db7 req.students)
          req.class_selections []).1,
       { success := true, family_id := fam.id,
         enrollment_ids := (createEnrollments smap
            (buildLevelMaps db7 (yearClassesOf db7 req.academic_year_id)).1
            (buildLevelMaps db7 (yearClassesOf db7 req.academic_year_id)).2
            (clearEnrollments ((yearClassesOf db7 req.academic_year_id).map (fun c => c.id))
              smap db7 req.students)
            req.class_selections []).2,
         message := "Enrollment submitted successfully. " ++
           toString (createEnrollments smap
              (buildLevelMaps db7 (yearClassesOf db7 req.academic_year_id)).1
              (buildLevelMaps db7 (yearClassesOf db7 req.academic_year_id)).2
              (clearEnrollments ((yearClassesOf db7 req.academic_year_id).map (fun c => c.id))
                smap db7 req.students)
              req.class_selections []).2.length ++
           " class enrollments created." }) := by
  unfold submitBody
  rw [show ckpt 0 none = .ok () from rfl, h1]
  dsimp only
  rw [show ckpt 1 none = .ok () from rfl, h2]
  dsimp only
  rw [show ckpt 2 none = .ok () from rfl, h3]
  dsimp only
  rw [show ckpt 3 none = .ok () from rfl, h4]
  dsimp only
  rw [show ckpt 4 none = .ok () from rfl, show ckpt 5 none = .ok () from rfl,
      show ckpt 6 none = .ok () from rfl]

lemma submit_enrollment_none_ok (db : DB) (req : Request)
    (hfam : ∀ fid, req.family_id = some fid → ∃ f ∈ db.families, f.id = fid) :
    ∃ db' resp, submit_enrollment db req none = (db', .ok resp) := by
  rcases resolveFamily_ok db req hfam with ⟨db1, fam, h1, -⟩
  rcases guardianPhase_ok db1 req fam.id with ⟨db3, h2⟩
  rcases studentPhase_ok db3 req fam.id with ⟨⟨db5, smap⟩, h3⟩
  rcases ecPhase_ok db5 req fam.id with ⟨db7, h4⟩
  have hbody := submitBody_none_eq db req db1 fam db3 db5 smap db7 h1 h2 h3 h4
  unfold submit_enrollment
  rw [hbody]
  exact ⟨_, _, rfl⟩

lemma selStep_skip (m : SMap) (gl vn : LMap) (st : DB × List Nat) (sel : ClassSelection)
    (h : resolveSel m sel = none ∨
         (selOne sel.giao_ly_level gl = none ∧ selOne sel.viet_ngu_level vn = none)) :
    selStep m gl vn st sel = st := by
  unfold selStep
  rcases h with h | ⟨h1, h2⟩
  · rw [h]
  · cases hres : resolveSel m sel with
    | none => rfl
    | some sid =>
      dsimp only
      rw [h1, h2]

/-- C6.  Silent skip of unresolvable class selections.  Part 1: a submission
never fails because of its class selections — whenever the referenced family
exists (or a new family is being created), the submission succeeds.  Part 2:
a class selection whose `student_id` neither appears in the client-id map nor
parses as a durable id, or whose selected levels have no matching class in
the target year's level maps (including the falsy level `0`), is a no-op of
the enrollment-creation loop: removing it changes neither the resulting
store nor the returned `enrollment_ids`, so it produces no enrollment,
raises no error, and contributes no id. -/
theorem silent_skip_of_unresolvable_selection :
    (∀ (db : DB) (req : Request),
        (∀ fid, req.family_id = some fid → ∃ f ∈ db.families, f.id = fid) →
        ∃ db' resp, submit_enrollment db req none = (db', .ok resp)) ∧
    (∀ (m : SMap) (gl vn : LMap) (sel : ClassSelection),
        ((mapGet m sel.student_id = none ∧ try_parse_uuid sel.student_id = none) ∨
         ((sel.giao_ly_level = none ∨
            ∃ l, sel.giao_ly_level = some l ∧ (l = 0 ∨ lmapGet gl l = none)) ∧
          (sel.viet_ngu_level = none ∨
            ∃ l, sel.viet_ngu_level = some l ∧ (l = 0 ∨ lmapGet vn l = none)))) →
        ∀ (l1 l2 : List ClassSelection) (db : DB) (acc : List Nat),
          createEnrollments m gl vn db (l1 ++ sel :: l2) acc =
            createEnrollments m gl vn db (l1 ++ l2) acc) := by
  constructor
  · exact fun db req hfam => submit_enrollment_none_ok db req hfam
  · intro m gl vn sel h
    have hskip : ∀ st : DB × List Nat, selStep m gl vn st sel = st := by
      intro st
      apply selStep_skip
      rcases h with ⟨hm, hp⟩ | ⟨hg, hv⟩
      · left
        unfold resolveSel
        rw [hm, hp]
      · right
        constructor
        · rcases hg with hg | ⟨l, hl, hcase⟩
          · unfold selOne; rw [hg]
          · unfold selOne
            rw [hl]
            rcases hcase with rfl | hnone
            · simp
            · simp [hnone]
        · rcases hv with hv | ⟨l, hl, hcase⟩
          · unfold selOne; rw [hv]
          · unfold selOne
            rw [hl]
            rcases hcase with rfl | hnone
            · simp
            · simp [hnone]
    intro l1
    induction l1 with
    | nil =>
      intro l2 db acc
      have hstep : createEnrollments m gl vn db (sel :: l2) acc =
          createEnrollments m gl vn (selStep m gl vn (db, acc) sel).1 l2
            (selStep m gl vn (db, acc) sel).2 := rfl
      simp only [List.nil_append]
      rw [hstep, hskip (db, acc)]
    | cons x l1 ih =>
      intro l2 db acc
      simp only [List.cons_append]
      have hstep1 : createEnrollments m gl vn db (x :: (l1 ++ sel :: l2)) acc =
          createEnrollments m gl vn (selStep m gl vn (db, acc) x).1 (l1 ++ sel :: l2)
            (selStep m gl vn (db, acc) x).2 := rfl
      have hstep2 : createEnrollments m gl vn db (x :: (l1 ++ l2)) acc =
          createEnrollments m gl vn (selStep m gl vn (db, acc) x).1 (l1 ++ l2)
            (selStep m gl vn (db, acc) x).2 := rfl
      rw [hstep1, hstep2, ih]

/-- Witness for C6: a submission of family 1 whose only selection has an
unparseable placeholder student id succeeds; and that selection is a no-op of
the creation loop. -/
theorem silent_skip_of_unresolvable_selection_witness :
    (∃ db' resp, submit_enrollment crossFamDb
        { crossFamReq with
          class_selections := [⟨.placeholder "new-x", some 3, none, false, false⟩] }
        none = (db', .ok resp)) ∧
    createEnrollments [] [] [] crossFamDb
        [⟨.placeholder "new-x", some 3, none, false, false⟩] [] =
      createEnrollments [] [] [] crossFamDb [] [] := by
  constructor
  · apply silent_skip_of_unresolvable_selection.1
    intro fid hf
    injection hf with h
    subst h
    exact ⟨⟨1, ⟨some "Fam One", none, none, none, none, none⟩⟩, by decide, rfl⟩
  · have := silent_skip_of_unresolvable_selection.2 [] [] []
      ⟨.placeholder "new-x", some 3, none, false, false⟩
      (Or.inl ⟨rfl, rfl⟩) [] [] crossFamDb []
    simpa using this

/-! ### Echoed-resubmission (all-update) characterizations -/

lemma processGuardians_echo (famId : Nat) (ex : List Nat) :
    ∀ (subs : List GuardianSub) (db : DB) (kept : List Nat),
      (∀ u ∈ ex, u ∈ db.guardians.map (fun g => g.id)) →
      (∀ g ∈ subs, ∃ u, g.sid = .durable u ∧ u ∈ ex ∧
          (∀ r ∈ db.guardians, r.id = u → r.fields = g.fields)) →
      processGuardians famId ex db subs kept =
        .ok (db, kept ++ subs.filterMap (fun g => try_parse_uuid g.sid)) := by
  intro subs
  induction subs with
  | nil => intro db kept hex hsubs; simp [processGuardians]
  | cons g rest ih =>
    intro db kept hex hsubs
    rcases hsubs g (by simp) with ⟨u, hsid, hu, hfields⟩
    unfold processGuardians
    rw [hsid]
    dsimp only [try_parse_uuid]
    rw [if_pos hu]
    rcases find?_id_of_mem (fun g : GuardianRow => g.id) (hex u hu) with ⟨r, hr⟩
    rw [hr]
    have hmap : db.guardians.map
        (fun row => if row.id == u then { row with fields := g.fields } else row) =
        db.guardians := by
      have hpt : ∀ r ∈ db.guardians,
          (if r.id == u then { r with fields := g.fields } else r) = r := by
        intro r hrmem
        by_cases hid : (r.id == u) = true
        · rw [if_pos hid]
          have hf : r.fields = g.fields := hfields r hrmem (by simpa using hid)
          rw [← hf]
        · rw [if_neg hid]
      calc db.guardians.map
            (fun row => if row.id == u then { row with fields := g.fields } else row)
          = db.guardians.map (fun r => r) := List.map_congr_left hpt
        _ = db.guardians := List.map_id' _
    dsimp only
    rw [hmap, show ({ db with guardians := db.guardians } : DB) = db from rfl]
    rw [ih db (kept ++ [u]) hex (fun x hx => hsubs x (by simp [hx]))]
    simp [hsid, try_parse_uuid, List.filterMap_cons]

lemma guardianPhase_echo (db : DB) (req : Request) (famId : Nat)
    (hsubs : ∀ g ∈ req.guardians, ∃ u, g.sid = .durable u ∧
        u ∈ existingGuardianIds db req famId ∧
        (∀ r ∈ db.guardians, r.id = u → r.fields = g.fields))
    (hcover : ∀ u ∈ existingGuardianIds db req famId,
        ∃ g ∈ req.guardians, g.sid = .durable u) :
    guardianPhase db req famId = .ok db := by
  unfold guardianPhase
  rw [processGuardians_echo famId _ req.guardians db []
    (existingGuardianIds_sub db req famId) hsubs]
  have htd : (existingGuardianIds db req famId).filter
      (fun i => !((([] : List Nat) ++
        req.guardians.filterMap (fun g => try_parse_uuid g.sid)).contains i)) = [] := by
    rw [List.filter_eq_nil]
    intro i hi
    rcases hcover i hi with ⟨g, hg, hgs⟩
    have hmemfm : i ∈ req.guardians.filterMap (fun g => try_parse_uuid g.sid) :=
      List.mem_filterMap.mpr ⟨g, hg, by rw [hgs]; rfl⟩
    simp only [List.nil_append, Bool.not_eq_true']
    rw [contains_eq_mem.mpr hmemfm]
    simp
  dsimp only
  rw [htd]
  have hdel : deleteGuardians db [] = db := by
    unfold deleteGuardians
    rw [List.filter_eq_self.mpr (fun a _ => by simp [List.contains])]
  rw [hdel]

lemma processStudents_echo (famId : Nat) (ex : List Nat) :
    ∀ (subs : List StudentSub) (db : DB) (m : SMap) (kept : List Nat),
      (∀ u ∈ ex, u ∈ db.students.map (fun s => s.id)) →
      (∀ sd ∈ subs, ∃ u, sd.sid = .durable u ∧ u ∈ ex ∧
          (∀ r ∈ db.students, r.id = u → r.fields = sd.toFields)) →
      processStudents famId ex db subs m kept =
        .ok (db, echoStudentMap m subs,
             kept ++ subs.filterMap (fun sd => try_parse_uuid sd.sid)) := by
  intro subs
  induction subs with
  | nil => intro db m kept hex hsubs; simp [processStudents, echoStudentMap]
  | cons sd rest ih =>
    intro db m kept hex hsubs
    rcases hsubs sd (by simp) with ⟨u, hsid, hu, hfields⟩
    unfold processStudents
    rw [hsid]
    dsimp only [try_parse_uuid]
    rw [if_pos hu]
    rcases find?_id_of_mem (fun s : StudentRow => s.id) (hex u hu) with ⟨r, hr⟩
    rw [hr]
    have hmap : db.students.map
        (fun row => if row.id == u then { row with fields := sd.toFields } else row) =
        db.students := by
      have hpt : ∀ r ∈ db.students,
          (if r.id == u then { r with fields := sd.toFields } else r) = r := by
        intro r hrmem
        by_cases hid : (r.id == u) = true
        · rw [if_pos hid]
          have hf : r.fields = sd.toFields := hfields r hrmem (by simpa using hid)
          rw [← hf]
        · rw [if_neg hid]
      calc db.students.map
            (fun row => if row.id == u then { row with fields := sd.toFields } else row)
          = db.students.map (fun r => r) := List.map_congr_left hpt
        _ = db.students := List.map_id' _
    dsimp only
    rw [hmap, show ({ db with students := db.students } : DB) = db from rfl]
    rw [ih db (mapInsert m (.durable u) u) (kept ++ [u]) hex (fun x hx => hsubs x (by simp [hx]))]
    have hme : echoStudentMap m (sd :: rest) = echoStudentMap (mapInsert m (.durable u) u) rest := by
      show echoStudentMap (mapInsert m sd.sid ((try_parse_uuid sd.sid).getD 0)) rest =
        echoStudentMap (mapInsert m (.durable u) u) rest
      simp only [hsid]
      rfl
    rw [hme]
    simp [hsid, try_parse_uuid, List.filterMap_cons]

lemma studentPhase_echo (db : DB) (req : Request) (famId : Nat)
    (hsubs : ∀ sd ∈ req.students, ∃ u, sd.sid = .durable u ∧
        u ∈ existingStudentIds db req famId ∧
        (∀ r ∈ db.students, r.id = u → r.fields = sd.toFields))
    (hcover : ∀ u ∈ existingStudentIds db req famId,
        ∃ sd ∈ req.students, sd.sid = .durable u) :
    studentPhase db req famId = .ok (db, echoStudentMap [] req.students) := by
  unfold studentPhase
  rw [processStudents_echo famId _ req.students db [] []
    (existingStudentIds_sub db req famId) hsubs]
  have htd : (existingStudentIds db req famId).filter
      (fun i => !((([] : List Nat) ++
        req.students.filterMap (fun sd => try_parse_uuid sd.sid)).contains i)) = [] := by
    rw [List.filter_eq_nil]
    intro i hi
    rcases hcover i hi with ⟨sd, hg, hgs⟩
    have hmemfm : i ∈ req.students.filterMap (fun sd => try_parse_uuid sd.sid) :=
      List.mem_filterMap.mpr ⟨sd, hg, by rw [hgs]; rfl⟩
    simp only [List.nil_append, Bool.not_eq_true']
    rw [contains_eq_mem.mpr hmemfm]
    simp
  dsimp only
  rw [htd]
  have hdel : deleteStudents db [] = db := by
    unfold deleteStudents
    rw [List.filter_eq_self.mpr (fun a _ => by simp [List.contains])]
    have henr : db.enrollments.map (fun e =>
        match e.student_id with
        | some sid => if List.contains [] sid then { e with student_id := none } else e
        | none => e) = db.enrollments := by
      calc db.enrollments.map (fun e =>
            match e.student_id with
            | some sid => if List.contains [] sid then { e with student_id := none } else e
            | none => e)
          = db.enrollments.map (fun e => e) := by
            apply List.map_congr_left
            intro e _
            cases he : e.student_id with
            | none => rfl
            | some sid => simp [List.contains, ← he]
        _ = db.enrollments := List.map_id' _
    rw [henr]
  rw [hdel]

lemma processEcs_echo (famId : Nat) (ex : List Nat) :
    ∀ (subs : List ECSub) (db : DB) (kept : List Nat),
      (∀ u ∈ ex, u ∈ db.emergency_contacts.map (fun c => c.id)) →
      (∀ c ∈ subs, ∃ u, c.sid = .durable u ∧ u ∈ ex ∧
          (∀ r ∈ db.emergency_contacts, r.id = u → r.fields = c.fields)) →
      processEcs famId ex db subs kept =
        .ok (db, kept ++ subs.filterMap (fun c => try_parse_uuid c.sid)) := by
  intro subs
  induction subs with
  | nil => intro db kept hex hsubs; simp [processEcs]
  | cons c rest ih =>
    intro db kept hex hsubs
    rcases hsubs c (by simp) with ⟨u, hsid, hu, hfields⟩
    unfold processEcs
    rw [hsid]
    dsimp only [try_parse_uuid]
    rw [if_pos hu]
    rcases find?_id_of_mem (fun c : ECRow => c.id) (hex u hu) with ⟨r, hr⟩
    rw [hr]
    have hmap : db.emergency_contacts.map
        (fun row => if row.id == u then { row with fields := c.fields } else row) =
        db.emergency_contacts := by
      have hpt : ∀ r ∈ db.emergency_contacts,
          (if r.id == u then { r with fields := c.fields } else r) = r := by
        intro r hrmem
        by_cases hid : (r.id == u) = true
        · rw [if_pos hid]
          have hf : r.fields = c.fields := hfields r hrmem (by simpa using hid)
          rw [← hf]
        · rw [if_neg hid]
      calc db.emergency_contacts.map
            (fun row => if row.id == u then { row with fields := c.fields } else row)
          = db.emergency_contacts.map (fun r => r) := List.map_congr_left hpt
        _ = db.emergency_contacts := List.map_id' _
    dsimp only
    rw [hmap, show ({ db with emergency_contacts := db.emergency_contacts } : DB) = db from rfl]
    rw [ih db (kept ++ [u]) hex (fun x hx => hsubs x (by simp [hx]))]
    simp [hsid, try_parse_uuid, List.filterMap_cons]

lemma ecPhase_echo (db : DB) (req : Request) (famId : Nat)
    (hsubs : ∀ c ∈ req.emergency_contacts, ∃ u, c.sid = .durable u ∧
        u ∈ existingEcIds db req famId ∧
        (∀ r ∈ db.emergency_contacts, r.id = u → r.fields = c.fields))
    (hcover : ∀ u ∈ existingEcIds db req famId,
        ∃ c ∈ req.emergency_contacts, c.sid = .durable u) :
    ecPhase db req famId = .ok db := by
  unfold ecPhase
  rw [processEcs_echo famId _ req.emergency_contacts db []
    (existingEcIds_sub db req famId) hsubs]
  have htd : (existingEcIds db req famId).filter
      (fun i => !((([] : List Nat) ++
        req.emergency_contacts.filterMap (fun c => try_parse_uuid c.sid)).contains i)) = [] := by
    rw [List.filter_eq_nil]
    intro i hi
    rcases hcover i hi with ⟨c, hg, hgs⟩
    have hmemfm : i ∈ req.emergency_contacts.filterMap (fun c => try_parse_uuid c.sid) :=
      List.mem_filterMap.mpr ⟨c, hg, by rw [hgs]; rfl⟩
    simp only [List.nil_append, Bool.not_eq_true']
    rw [contains_eq_mem.mpr hmemfm]
    simp
  dsimp only
  rw [htd]
  have hdel : deleteEcs db [] = db := by
    unfold deleteEcs
    rw [List.filter_eq_self.mpr (fun a _ => by simp [List.contains])]
  rw [hdel]

/-- C2.  Idempotent resubmission: a submission for an existing family whose
guardian, student, and emergency-contact items all echo back durable ids of
the family's persisted rows — covering every persisted row, with the item
data equal to the persisted business fields (for students, the stored
column assignment `toFields` reproduces the row) — performs only updates:
the submission succeeds and the persisted guardian, student, and
emergency-contact tables are left exactly unchanged (same rows, same ids,
same count, same field values; no inserts, no deletes). -/
theorem idempotent_resubmission (db : DB) (req : Request) (fid : Nat)
    (hreq : req.family_id = some fid)
    (hfam : ∃ f ∈ db.families, f.id = fid)
    (hg : ∀ g ∈ req.guardians, ∃ u, g.sid = .durable u ∧
        u ∈ (db.guardians.filter (fun r => r.family_id == fid)).map (fun r => r.id) ∧
        (∀ r ∈ db.guardians, r.id = u → r.fields = g.fields))
    (hgc : ∀ u ∈ (db.guardians.filter (fun r => r.family_id == fid)).map (fun r => r.id),
        ∃ g ∈ req.guardians, g.sid = .durable u)
    (hs : ∀ sd ∈ req.students, ∃ u, sd.sid = .durable u ∧
        u ∈ (db.students.filter (fun r => r.family_id == fid)).map (fun r => r.id) ∧
        (∀ r ∈ db.students, r.id = u → r.fields = sd.toFields))
    (hsc : ∀ u ∈ (db.students.filter (fun r => r.family_id == fid)).map (fun r => r.id),
        ∃ sd ∈ req.students, sd.sid = .durable u)
    (he : ∀ c ∈ req.emergency_contacts, ∃ u, c.sid = .durable u ∧
        u ∈ (db.emergency_contacts.filter (fun r => r.family_id == fid)).map (fun r => r.id) ∧
        (∀ r ∈ db.emergency_contacts, r.id = u → r.fields = c.fields))
    (hec : ∀ u ∈ (db.emergency_contacts.filter (fun r => r.family_id == fid)).map (fun r => r.id),
        ∃ c ∈ req.emergency_contacts, c.sid = .durable u) :
    ∃ db' resp, submit_enrollment db req none = (db', .ok resp) ∧
      db'.guardians = db.guardians ∧ db'.students = db.students ∧
      db'.emergency_contacts = db.emergency_contacts := by
  rcases resolveFamily_ok db req (fun fid' h => by
    rw [hreq] at h
    injection h with h'
    subst h'
    exact hfam) with ⟨db1, fam, h1, hfamid, hgEq, hsEq, heEq, hpEq, hcEq, henEq, hnle, -⟩
  have hfid : fam.id = fid := hfamid fid hreq
  have hsome : req.family_id.isSome = true := by rw [hreq]; rfl
  have hex_g : existingGuardianIds db1 req fam.id =
      (db.guardians.filter (fun r => r.family_id == fid)).map (fun r => r.id) := by
    unfold existingGuardianIds
    rw [if_pos hsome, hgEq, hfid]
  have hex_s : existingStudentIds db1 req fam.id =
      (db.students.filter (fun r => r.family_id == fid)).map (fun r => r.id) := by
    unfold existingStudentIds
    rw [if_pos hsome, hsEq, hfid]
  have hex_e : existingEcIds db1 req fam.id =
      (db.emergency_contacts.filter (fun r => r.family_id == fid)).map (fun r => r.id) := by
    unfold existingEcIds
    rw [if_pos hsome, heEq, hfid]
  have h2 : guardianPhase db1 req fam.id = .ok db1 := by
    apply guardianPhase_echo
    · intro g hgm
      rcases hg g hgm with ⟨u, hu1, hu2, hu3⟩
      exact ⟨u, hu1, by rw [hex_g]; exact hu2, by rw [hgEq]; exact hu3⟩
    · intro u hu
      rw [hex_g] at hu
      exact hgc u hu
  have h3 : studentPhase db1 req fam.id = .ok (db1, echoStudentMap [] req.students) := by
    apply studentPhase_echo
    · intro sd hsm
      rcases hs sd hsm with ⟨u, hu1, hu2, hu3⟩
      exact ⟨u, hu1, by rw [hex_s]; exact hu2, by rw [hsEq]; exact hu3⟩
    · intro u hu
      rw [hex_s] at hu
      exact hsc u hu
  have h4 : ecPhase db1 req fam.id = .ok db1 := by
    apply ecPhase_echo
    · intro c hcm
      rcases he c hcm with ⟨u, hu1, hu2, hu3⟩
      exact ⟨u, hu1, by rw [hex_e]; exact hu2, by rw [heEq]; exact hu3⟩
    · intro u hu
      rw [hex_e] at hu
      exact hec u hu
  have hbody := submitBody_none_eq db req db1 fam db1 db1
    (echoStudentMap [] req.students) db1 h1 h2 h3 h4
  unfold submit_enrollment
  rw [hbody]
  have hclear := clearEnrollments_frame
    ((yearClassesOf db1 req.academic_year_id).map (fun c => c.id))
    (echoStudentMap [] req.students) req.students db1
  refine ⟨_, _, rfl, ?_, ?_, ?_⟩
  · rw [createEnrollments_eq]
    exact hclear.2.1.trans hgEq
  · rw [createEnrollments_eq]
    exact hclear.2.2.1.trans hsEq
  · rw [createEnrollments_eq]
    exact hclear.2.2.2.1.trans heEq

/-- Witness for C2: resubmitting the echoed snapshot of `echoDb`'s family 1
leaves its guardian, student, and emergency-contact tables unchanged. -/
theorem idempotent_resubmission_witness :
    ∃ db' resp, submit_enrollment echoDb echoReq none = (db', .ok resp) ∧
      db'.guardians = echoDb.guardians ∧ db'.students = echoDb.students ∧
      db'.emergency_contacts = echoDb.emergency_contacts := by
  apply idempotent_resubmission echoDb echoReq 1 rfl
  · exact ⟨⟨1, ⟨some "Fam", none, none, none, none, none⟩⟩, by decide, rfl⟩
  · intro g hgm
    simp only [echoReq, List.mem_singleton] at hgm
    subst hgm
    exact ⟨10, rfl, by decide, by decide⟩
  · intro u hu
    simp only [echoDb] at hu
    have : u = 10 := by simpa using hu
    subst this
    exact ⟨⟨.durable 10, ⟨"G", none, none, none⟩⟩, by simp [echoReq], rfl⟩
  · intro sd hsm
    simp only [echoReq, List.mem_singleton] at hsm
    subst hsm
    exact ⟨20, rfl, by decide, by decide⟩
  · intro u hu
    simp only [echoDb] at hu
    have : u = 20 := by simpa using hu
    subst this
    exact ⟨⟨.durable 20, "A", "B", none, none, none, none, none, none, none, none, none⟩,
      by simp [echoReq], rfl⟩
  · intro c hcm
    simp only [echoReq, List.mem_singleton] at hcm
    subst hcm
    exact ⟨30, rfl, by decide, by decide⟩
  · intro u hu
    simp only [echoDb] at hu
    have : u = 30 := by simpa using hu
    subst this
    exact ⟨⟨.durable 30, ⟨"E", none, "555", none⟩⟩, by simp [echoReq], rfl⟩

/-! ### Reconciliation-completeness core lemma -/

lemma filter_map_filter {α : Type} (updA : α → α) (p q : α → Bool) (l : List α) :
    ((l.filter p).map updA).filter q = (l.filter (fun x => p x && q (updA x))).map updA := by
  induction l with
  | nil => rfl
  | cons y t ih =>
    cases hp : p y with
    | false =>
      simp [List.filter_cons, hp, ih]
    | true =>
      cases hq : q (updA y) with
      | false =>
        simp [List.filter_cons, hp, hq, ih]
      | true =>
        simp [List.filter_cons, hp, hq, ih]

lemma reconcile_core {α : Type} (idf famf : α → Nat) (l : List α) (fid A B C : Nat)
    (upd : α → α) (nw : α) (ex toDel : List Nat) (final : List α)
    (hex : ex = (l.filter (fun x => famf x == fid)).map idf)
    (htd : toDel = ex.filter (fun i => !(([A] : List Nat).contains i)))
    (hfin : final = ((l.map (fun x => if idf x == A then upd x else x)) ++ [nw]).filter
        (fun x => !(toDel.contains (idf x))))
    (hnd : (l.map idf).Nodup)
    (hperm : ex.Perm [A, B, C])
    (hui : ∀ x, idf (upd x) = idf x)
    (huf : ∀ x, famf (upd x) = famf x)
    (hfresh : ∀ x ∈ l, idf x ≠ idf nw)
    (hnf : famf nw = fid) :
    ∃ rA ∈ l, idf rA = A ∧ famf rA = fid ∧
      final.filter (fun x => famf x == fid) = [upd rA, nw] ∧
      B ∉ final.map idf ∧ C ∉ final.map idf := by
  have hnd_ex : ex.Nodup := by
    rw [hex]
    have hsub : (l.filter (fun x => famf x == fid)).Sublist l := List.filter_sublist l
    exact hnd.sublist (hsub.map idf)
  have habc : ([A, B, C] : List Nat).Nodup := hperm.nodup_iff.mp hnd_ex
  have hAB : A ≠ B := by simp at habc; tauto
  have hAC : A ≠ C := by simp at habc; tauto
  have hmem_ex : ∀ i, i ∈ ex ↔ (i = A ∨ i = B ∨ i = C) := by
    intro i
    rw [hperm.mem_iff]
    simp
  -- the unique family row with id A
  have hAex : A ∈ ex := (hmem_ex A).mpr (Or.inl rfl)
  rw [hex] at hAex
  rcases List.mem_map.mp hAex with ⟨rA, hrA_filt, hidA⟩
  have hrA_mem : rA ∈ l := List.mem_of_mem_filter hrA_filt
  have hrA_fam : (famf rA == fid) = true := (List.mem_filter.mp hrA_filt).2
  have hrA_fam' : famf rA = fid := by simpa using hrA_fam
  -- toDel membership
  have htd_mem : ∀ i, toDel.contains i = true ↔ (i ∈ ex ∧ i ≠ A) := by
    intro i
    rw [htd, contains_eq_mem, List.mem_filter]
    constructor
    · rintro ⟨h1, h2⟩
      refine ⟨h1, ?_⟩
      intro hc
      subst hc
      simp at h2
    · rintro ⟨h1, h2⟩
      exact ⟨h1, by simpa using h2⟩
  set updA : α → α := fun x => if idf x == A then upd x else x with hupdA
  have hui' : ∀ x, idf (updA x) = idf x := by
    intro x
    rw [hupdA]
    by_cases h : (idf x == A) = true
    · simp only [h, if_true]
      exact hui x
    · simp only [h]
      simp
  have huf' : ∀ x, famf (updA x) = famf x := by
    intro x
    rw [hupdA]
    by_cases h : (idf x == A) = true
    · simp only [h, if_true]
      exact huf x
    · simp only [h]
      simp
  -- every id in ex is the id of an l element
  have hex_sub : ∀ i ∈ ex, ∃ x ∈ l, idf x = i := by
    intro i hi
    rw [hex] at hi
    rcases List.mem_map.mp hi with ⟨x, hx, hxi⟩
    exact ⟨x, List.mem_of_mem_filter hx, hxi⟩
  -- nw survives the deletion filter
  have hnw_surv : (!(toDel.contains (idf nw))) = true := by
    cases hcc : toDel.contains (idf nw) with
    | false => simp
    | true =>
      rcases hex_sub (idf nw) ((htd_mem (idf nw)).mp hcc).1 with ⟨x, hx, hxi⟩
      exact absurd hxi (hfresh x hx)
  -- final as a map over surviving l elements plus nw
  have hfin2 : final = (l.filter (fun x => !(toDel.contains (idf x)))).map updA ++ [nw] := by
    rw [hfin, List.filter_append, filter_of_map]
    congr 1
    · congr 1
      apply List.filter_congr
      intro x _
      simp only [hui' x]
    · rw [List.filter_cons, if_pos hnw_surv]
      rfl
  refine ⟨rA, hrA_mem, hidA, hrA_fam', ?_, ?_, ?_⟩
  · -- the family filter of the final list
    rw [hfin2, List.filter_append, filter_map_filter]
    have hpt : ∀ x ∈ l,
        (fun a => (!(toDel.contains (idf a))) && ((fun y => famf y == fid) (updA a))) x =
        (fun a => idf a == A) x := by
      intro x hx
      dsimp only
      rw [huf' x]
      by_cases hfam : (famf x == fid) = true
      · have hxex : idf x ∈ ex := by
          rw [hex]
          exact List.mem_map_of_mem idf (List.mem_filter.mpr ⟨hx, hfam⟩)
        by_cases hxa : (idf x == A) = true
        · have hfalse : toDel.contains (idf x) = false := by
            cases hcc : toDel.contains (idf x) with
            | false => rfl
            | true => exact absurd (by simpa using hxa) ((htd_mem (idf x)).mp hcc).2
          rw [hfalse, hxa, hfam]
          rfl
        · have hxa' : (idf x == A) = false := by simpa using hxa
          have htrue : toDel.contains (idf x) = true :=
            (htd_mem (idf x)).mpr ⟨hxex, by simpa using hxa⟩
          rw [htrue, hxa']
          rfl
      · have hfam' : (famf x == fid) = false := by simpa using hfam
        have hxa' : (idf x == A) = false := by
          by_cases hxa : (idf x == A) = true
          · have hxA : idf x = A := by simpa using hxa
            have : x = rA := nodup_proj_inj idf hnd hx hrA_mem (hxA.trans hidA.symm)
            subst this
            exact absurd hrA_fam hfam
          · simpa using hxa
        rw [hfam', hxa']
        simp
    rw [List.filter_congr hpt, filter_single_of_nodup idf hnd hrA_mem hidA]
    have hupd_rA : updA rA = upd rA := by
      rw [hupdA]
      simp [hidA]
    simp [List.filter_cons, hnf, hupd_rA]
  · -- B is gone
    intro hB
    rw [hfin2, List.map_append, map_proj_of_preserve idf hui'] at hB
    rcases List.mem_append.mp hB with hB | hB
    · rcases List.mem_map.mp hB with ⟨x, hx_filt, hxi⟩
      have hxl : x ∈ l := List.mem_of_mem_filter hx_filt
      have hsv := (List.mem_filter.mp hx_filt).2
      have hBex : B ∈ ex := (hmem_ex B).mpr (Or.inr (Or.inl rfl))
      have : toDel.contains (idf x) = true :=
        (htd_mem (idf x)).mpr ⟨by rw [hxi]; exact hBex, by rw [hxi]; exact fun hc => hAB hc.symm⟩
      rw [this] at hsv
      simp at hsv
    · simp only [List.map_cons, List.map_nil, List.mem_singleton] at hB
      have hBex : B ∈ ex := (hmem_ex B).mpr (Or.inr (Or.inl rfl))
      rcases hex_sub B hBex with ⟨x, hx, hxi⟩
      exact hfresh x hx (hxi.trans hB)
  · -- C is gone
    intro hC
    rw [hfin2, List.map_append, map_proj_of_preserve idf hui'] at hC
    rcases List.mem_append.mp hC with hC | hC
    · rcases List.mem_map.mp hC with ⟨x, hx_filt, hxi⟩
      have hxl : x ∈ l := List.mem_of_mem_filter hx_filt
      have hsv := (List.mem_filter.mp hx_filt).2
      have hCex : C ∈ ex := (hmem_ex C).mpr (Or.inr (Or.inr (by simp)))
      have : toDel.contains (idf x) = true :=
        (htd_mem (idf x)).mpr ⟨by rw [hxi]; exact hCex, by rw [hxi]; exact fun hc => hAC hc.symm⟩
      rw [this] at hsv
      simp at hsv
    · simp only [List.map_cons, List.map_nil, List.mem_singleton] at hC
      have hCex : C ∈ ex := (hmem_ex C).mpr (Or.inr (Or.inr (by simp)))
      rcases hex_sub C hCex with ⟨x, hx, hxi⟩
      exact hfresh x hx (hxi.trans hC)

/-! ### Concrete two-item runs of the reconciliation loops -/

lemma processGuardians_pair (famId : Nat) (ex : List Nat) (db : DB) (A : Nat)
    (f1 : GFields) (s2 : SubmittedId) (f2 : GFields)
    (hA : A ∈ ex)
    (hfind : ∃ r, db.guardians.find? (fun row => row.id == A) = some r)
    (hs2 : try_parse_uuid s2 = none) :
    processGuardians famId ex db [⟨.durable A, f1⟩, ⟨s2, f2⟩] [] =
      .ok ({ db with
             guardians := (db.guardians.map (fun row =>
               if row.id == A then { row with fields := f1 } else row)) ++
               [⟨db.nextId, famId, f2⟩],
             nextId := db.nextId + 1 }, [A]) := by
  rcases hfind with ⟨r, hr⟩
  unfold processGuardians
  rw [show try_parse_uuid (SubmittedId.durable A) = some A from rfl]
  dsimp only
  rw [if_pos hA, hr]
  dsimp only
  unfold processGuardians
  rw [hs2]
  dsimp only
  unfold processGuardians
  rfl

lemma processStudents_pair (famId : Nat) (ex : List Nat) (db : DB) (A : Nat)
    (sd1 sd2 : StudentSub)
    (hsd1 : sd1.sid = .durable A)
    (hA : A ∈ ex)
    (hfind : ∃ r, db.students.find? (fun row => row.id == A) = some r)
    (hs2 : try_parse_uuid sd2.sid = none) :
    processStudents famId ex db [sd1, sd2] [] [] =
      .ok ({ db with
             students := (db.students.map (fun row =>
               if row.id == A then { row with fields := sd1.toFields } else row)) ++
               [⟨db.nextId, famId, sd2.toFields⟩],
             nextId := db.nextId + 1 },
           (if sd2.sid.truthy then
              mapInsert (mapInsert [] sd1.sid A) sd2.sid db.nextId
            else mapInsert [] sd1.sid A),
           [A]) := by
  rcases hfind with ⟨r, hr⟩
  unfold processStudents
  rw [hsd1, show try_parse_uuid (SubmittedId.durable A) = some A from rfl]
  dsimp only
  rw [if_pos hA, hr]
  dsimp only
  unfold processStudents
  cases hs2' : try_parse_uuid sd2.sid with
  | some u => rw [hs2'] at hs2; exact absurd hs2 (by simp)
  | none =>
    dsimp only
    unfold processStudents
    cases htr : sd2.sid.truthy with
    | true => simp [htr]
    | false => simp [htr]

lemma processEcs_pair (famId : Nat) (ex : List Nat) (db : DB) (A : Nat)
    (f1 : ECFields) (s2 : SubmittedId) (f2 : ECFields)
    (hA : A ∈ ex)
    (hfind : ∃ r, db.emergency_contacts.find? (fun row => row.id == A) = some r)
    (hs2 : try_parse_uuid s2 = none) :
    processEcs famId ex db [⟨.durable A, f1⟩, ⟨s2, f2⟩] [] =
      .ok ({ db with
             emergency_contacts := (db.emergency_contacts.map (fun row =>
               if row.id == A then { row with fields := f1 } else row)) ++
               [⟨db.nextId, famId, f2⟩],
             nextId := db.nextId + 1 }, [A]) := by
  rcases hfind with ⟨r, hr⟩
  unfold processEcs
  rw [show try_parse_uuid (SubmittedId.durable A) = some A from rfl]
  dsimp only
  rw [if_pos hA, hr]
  dsimp only
  unfold processEcs
  rw [hs2]
  dsimp only
  unfold processEcs
  rfl

/-- C1.  Reconciliation completeness: for a family whose persisted guardian
(resp. student, emergency-contact) set has ids `{A, B, C}`, a submission
echoing durable id `A` with new fields plus one item with an unparseable id
results in: `A`'s fields overwritten, exactly one new row inserted under the
family with a freshly generated id, and `B` and `C` deleted. -/
theorem reconciliation_completeness (db : DB) (req : Request) (fid : Nat)
    (wf : DBWF db)
    (hreq : req.family_id = some fid)
    (hfam : ∃ f ∈ db.families, f.id = fid) :
    (∀ (A B C : Nat) (f1 : GFields) (s2 : SubmittedId) (f2 : GFields),
      req.guardians = [⟨.durable A, f1⟩, ⟨s2, f2⟩] →
      try_parse_uuid s2 = none →
      ((db.guardians.filter (fun g => g.family_id == fid)).map (fun g => g.id)).Perm
        [A, B, C] →
      ∃ db' resp, submit_enrollment db req none = (db', .ok resp) ∧
        ∃ nid, nid ∉ db.guardians.map (fun g => g.id) ∧
          db'.guardians.filter (fun g => g.family_id == fid) =
            [⟨A, fid, f1⟩, ⟨nid, fid, f2⟩] ∧
          B ∉ db'.guardians.map (fun g => g.id) ∧
          C ∉ db'.guardians.map (fun g => g.id)) ∧
    (∀ (A B C : Nat) (sd1 sd2 : StudentSub),
      req.students = [sd1, sd2] →
      sd1.sid = .durable A →
      try_parse_uuid sd2.sid = none →
      ((db.students.filter (fun s => s.family_id == fid)).map (fun s => s.id)).Perm
        [A, B, C] →
      ∃ db' resp, submit_enrollment db req none = (db', .ok resp) ∧
        ∃ nid, nid ∉ db.students.map (fun s => s.id) ∧
          db'.students.filter (fun s => s.family_id == fid) =
            [⟨A, fid, sd1.toFields⟩, ⟨nid, fid, sd2.toFields⟩] ∧
          B ∉ db'.students.map (fun s => s.id) ∧
          C ∉ db'.students.map (fun s => s.id)) ∧
    (∀ (A B C : Nat) (f1 : ECFields) (s2 : SubmittedId) (f2 : ECFields),
      req.emergency_contacts = [⟨.durable A, f1⟩, ⟨s2, f2⟩] →
      try_parse_uuid s2 = none →
      ((db.emergency_contacts.filter (fun c => c.family_id == fid)).map
        (fun c => c.id)).Perm [A, B, C] →
      ∃ db' resp, submit_enrollment db req none = (db', .ok resp) ∧
        ∃ nid, nid ∉ db.emergency_contacts.map (fun c => c.id) ∧
          db'.emergency_contacts.filter (fun c => c.family_id == fid) =
            [⟨A, fid, f1⟩, ⟨nid, fid, f2⟩] ∧
          B ∉ db'.emergency_contacts.map (fun c => c.id) ∧
          C ∉ db'.emergency_contacts.map (fun c => c.id)) := by
  rcases resolveFamily_ok db req (fun fid' h => by
    rw [hreq] at h
    injection h with h'
    subst h'
    exact hfam) with ⟨db1, fam, h1, hfamid, hgEq, hsEq, heEq, hpEq, hcEq, henEq, hnle, hnex⟩
  have hfid : fam.id = fid := hfamid fid hreq
  have hsome : req.family_id.isSome = true := by rw [hreq]; rfl
  have hnexteq : db1.nextId = db.nextId := hnex hsome
  refine ⟨?_, ?_, ?_⟩
  · -- guardians
    intro A B C f1 s2 f2 hreqg hs2 hperm0
    have hex_g : existingGuardianIds db1 req fam.id =
        (db.guardians.filter (fun g => g.family_id == fid)).map (fun g => g.id) := by
      unfold existingGuardianIds
      rw [if_pos hsome, hgEq, hfid]
    have hAex : A ∈ existingGuardianIds db1 req fam.id := by
      rw [hex_g]
      exact hperm0.mem_iff.mpr (by simp)
    have hfindA : ∃ r, db1.guardians.find? (fun row => row.id == A) = some r := by
      rw [hgEq]
      refine find?_id_of_mem (fun g : GuardianRow => g.id) ?_
      rw [hex_g] at hAex
      rcases List.mem_map.mp hAex with ⟨g, hgf, hgi⟩
      exact hgi ▸ List.mem_map_of_mem _ (List.mem_of_mem_filter hgf)
    have hpair := processGuardians_pair fam.id (existingGuardianIds db1 req fam.id) db1 A
      f1 s2 f2 hAex hfindA hs2
    rcases guardianPhase_ok db1 req fam.id with ⟨db3, h2⟩
    have h23 : deleteGuardians
        { db1 with
          guardians := (db1.guardians.map (fun row =>
            if row.id == A then { row with fields := f1 } else row)) ++
            [⟨db1.nextId, fam.id, f2⟩],
          nextId := db1.nextId + 1 }
        ((existingGuardianIds db1 req fam.id).filter
          (fun i => !(([A] : List Nat).contains i))) = db3 := by
      unfold guardianPhase at h2
      rw [hreqg, hpair] at h2
      dsimp only at h2
      exact Except.ok.inj h2
    have hdb3g : db3.guardians =
        ((db1.guardians.map (fun row : GuardianRow =>
            if row.id == A then { row with fields := f1 } else row)) ++
          [(⟨db1.nextId, fam.id, f2⟩ : GuardianRow)]).filter
          (fun g => !(((existingGuardianIds db1 req fam.id).filter
            (fun i => !(([A] : List Nat).contains i))).contains g.id)) := by
      rw [← h23]
      rfl
    rcases studentPhase_ok db3 req fam.id with ⟨⟨db5, smap⟩, h3⟩
    rcases ecPhase_ok db5 req fam.id with ⟨db7, h4⟩
    have hsf := studentPhase_frame db3 req fam.id (db5, smap) h3
    have hef := ecPhase_frame db5 req fam.id db7 h4
    have hbody := submitBody_none_eq db req db1 fam db3 db5 smap db7 h1 h2 h3 h4
    have hclear := clearEnrollments_frame
      ((yearClassesOf db7 req.academic_year_id).map (fun c => c.id)) smap req.students db7
    unfold submit_enrollment
    rw [hbody]
    refine ⟨_, _, rfl, ?_⟩
    rw [createEnrollments_eq]
    dsimp only
    rw [hclear.2.1, hef.2.1, hsf.2.1, hdb3g, hex_g, hgEq, hnexteq, hfid]
    rcases reconcile_core (fun g : GuardianRow => g.id) (fun g => g.family_id)
      db.guardians fid A B C (fun row => { row with fields := f1 })
      ⟨db.nextId, fid, f2⟩ _ _ _ rfl rfl rfl wf.g_nodup hperm0
      (fun x => rfl) (fun x => rfl)
      (fun x hx => Nat.ne_of_lt (wf.g_fresh x hx)) rfl with
      ⟨rA, hrAmem, hidA, hfamA, hfilt, hB, hC⟩
    refine ⟨db.nextId, ?_, ?_, hB, hC⟩
    · intro hmem
      rcases List.mem_map.mp hmem with ⟨g, hgm, hgi⟩
      exact absurd hgi (Nat.ne_of_lt (wf.g_fresh g hgm))
    · obtain ⟨rid, rfid, rflds⟩ := rA
      dsimp only at hidA hfamA
      subst hidA
      subst hfamA
      exact hfilt
  · -- students
    intro A B C sd1 sd2 hreqs hsd1 hs2 hperm0
    rcases guardianPhase_ok db1 req fam.id with ⟨db3, h2⟩
    have hgf := guardianPhase_frame db1 req fam.id db3 h2
    have hex_s : existingStudentIds db3 req fam.id =
        (db.students.filter (fun s => s.family_id == fid)).map (fun s => s.id) := by
      unfold existingStudentIds
      rw [if_pos hsome, hgf.2.1, hsEq, hfid]
    have hAex : A ∈ existingStudentIds db3 req fam.id := by
      rw [hex_s]
      exact hperm0.mem_iff.mpr (by simp)
    have hfindA : ∃ r, db3.students.find? (fun row => row.id == A) = some r := by
      rw [hgf.2.1, hsEq]
      refine find?_id_of_mem (fun s : StudentRow => s.id) ?_
      rw [hex_s] at hAex
      rcases List.mem_map.mp hAex with ⟨g, hgf', hgi⟩
      exact hgi ▸ List.mem_map_of_mem _ (List.mem_of_mem_filter hgf')
    have hpair := processStudents_pair fam.id (existingStudentIds db3 req fam.id) db3 A
      sd1 sd2 hsd1 hAex hfindA hs2
    rcases studentPhase_ok db3 req fam.id with ⟨⟨db5, smap⟩, h3⟩
    have h35 : (deleteStudents
        { db3 with
          students := (db3.students.map (fun row =>
            if row.id == A then { row with fields := sd1.toFields } else row)) ++
            [⟨db3.nextId, fam.id, sd2.toFields⟩],
          nextId := db3.nextId + 1 }
        ((existingStudentIds db3 req fam.id).filter
          (fun i => !(([A] : List Nat).contains i))),
        (if sd2.sid.truthy then
           mapInsert (mapInsert [] sd1.sid A) sd2.sid db3.nextId
         else mapInsert [] sd1.sid A)) = (db5, smap) := by
      unfold studentPhase at h3
      rw [hreqs, hpair] at h3
      dsimp only at h3
      exact Except.ok.inj h3
    have h35s : deleteStudents
        { db3 with
          students := (db3.students.map (fun row =>
            if row.id == A then { row with fields := sd1.toFields } else row)) ++
            [⟨db3.nextId, fam.id, sd2.toFields⟩],
          nextId := db3.nextId + 1 }
        ((existingStudentIds db3 req fam.id).filter
          (fun i => !(([A] : List Nat).contains i))) = db5 := congrArg Prod.fst h35
    have hdb5s : db5.students =
        ((db3.students.map (fun row : StudentRow =>
            if row.id == A then { row with fields := sd1.toFields } else row)) ++
          [(⟨db3.nextId, fam.id, sd2.toFields⟩ : StudentRow)]).filter
          (fun s => !(((existingStudentIds db3 req fam.id).filter
            (fun i => !(([A] : List Nat).contains i))).contains s.id)) := by
      rw [← h35s]
      rfl
    rcases ecPhase_ok db5 req fam.id with ⟨db7, h4⟩
    have hef := ecPhase_frame db5 req fam.id db7 h4
    have hbody := submitBody_none_eq db req db1 fam db3 db5 smap db7 h1 h2 h3 h4
    have hclear := clearEnrollments_frame
      ((yearClassesOf db7 req.academic_year_id).map (fun c => c.id)) smap req.students db7
    have hfreshS : ∀ x ∈ db.students, x.id ≠ db3.nextId := by
      intro x hx
      exact Nat.ne_of_lt (Nat.lt_of_lt_of_le (wf.s_fresh x hx)
        (hnexteq ▸ hgf.2.2.2.2.2.2))
    unfold submit_enrollment
    rw [hbody]
    refine ⟨_, _, rfl, ?_⟩
    rw [createEnrollments_eq]
    dsimp only
    rw [hclear.2.2.1, hef.2.2.1, hdb5s, hex_s, hgf.2.1, hsEq, hfid]
    rcases reconcile_core (fun s : StudentRow => s.id) (fun s => s.family_id)
      db.students fid A B C (fun row => { row with fields := sd1.toFields })
      ⟨db3.nextId, fid, sd2.toFields⟩ _ _ _ rfl rfl rfl wf.s_nodup hperm0
      (fun x => rfl) (fun x => rfl) hfreshS rfl with
      ⟨rA, hrAmem, hidA, hfamA, hfilt, hB, hC⟩
    refine ⟨db3.nextId, ?_, ?_, hB, hC⟩
    · intro hmem
      rcases List.mem_map.mp hmem with ⟨g, hgm, hgi⟩
      exact absurd hgi (hfreshS g hgm)
    · obtain ⟨rid, rfid, rflds⟩ := rA
      dsimp only at hidA hfamA
      subst hidA
      subst hfamA
      exact hfilt
  · -- emergency contacts
    intro A B C f1 s2 f2 hreqe hs2 hperm0
    rcases guardianPhase_ok db1 req fam.id with ⟨db3, h2⟩
    have hgf := guardianPhase_frame db1 req fam.id db3 h2
    rcases studentPhase_ok db3 req fam.id with ⟨⟨db5, smap⟩, h3⟩
    have hsf := studentPhase_frame db3 req fam.id (db5, smap) h3
    have hex_e : existingEcIds db5 req fam.id =
        (db.emergency_contacts.filter (fun c => c.family_id == fid)).map
          (fun c => c.id) := by
      unfold existingEcIds
      rw [if_pos hsome, hsf.2.2.1, hgf.2.2.1, heEq, hfid]
    have hAex : A ∈ existingEcIds db5 req fam.id := by
      rw [hex_e]
      exact hperm0.mem_iff.mpr (by simp)
    have hfindA : ∃ r, db5.emergency_contacts.find? (fun row => row.id == A) = some r := by
      rw [hsf.2.2.1, hgf.2.2.1, heEq]
      refine find?_id_of_mem (fun c : ECRow => c.id) ?_
      rw [hex_e] at hAex
      rcases List.mem_map.mp hAex with ⟨g, hgf', hgi⟩
      exact hgi ▸ List.mem_map_of_mem _ (List.mem_of_mem_filter hgf')
    have hpair := processEcs_pair fam.id (existingEcIds db5 req fam.id) db5 A
      f1 s2 f2 hAex hfindA hs2
    rcases ecPhase_ok db5 req fam.id with ⟨db7, h4⟩
    have h57 : deleteEcs
        { db5 with
          emergency_contacts := (db5.emergency_contacts.map (fun row =>
            if row.id == A then { row with fields := f1 } else row)) ++
            [⟨db5.nextId, fam.id, f2⟩],
          nextId := db5.nextId + 1 }
        ((existingEcIds db5 req fam.id).filter
          (fun i => !(([A] : List Nat).contains i))) = db7 := by
      unfold ecPhase at h4
      rw [hreqe, hpair] at h4
      dsimp only at h4
      exact Except.ok.inj h4
    have hdb7e : db7.emergency_contacts =
        ((db5.emergency_contacts.map (fun row : ECRow =>
            if row.id == A then { row with fields := f1 } else row)) ++
          [(⟨db5.nextId, fam.id, f2⟩ : ECRow)]).filter
          (fun c => !(((existingEcIds db5 req fam.id).filter
            (fun i => !(([A] : List Nat).contains i))).contains c.id)) := by
      rw [← h57]
      rfl
    have hbody := submitBody_none_eq db req db1 fam db3 db5 smap db7 h1 h2 h3 h4
    have hclear := clearEnrollments_frame
      ((yearClassesOf db7 req.academic_year_id).map (fun c => c.id)) smap req.students db7
    have hfreshE : ∀ x ∈ db.emergency_contacts, x.id ≠ db5.nextId := by
      intro x hx
      refine Nat.ne_of_lt (Nat.lt_of_lt_of_le (wf.e_fresh x hx) ?_)
      calc db.nextId = db1.nextId := hnexteq.symm
        _ ≤ db3.nextId := hgf.2.2.2.2.2.2
        _ ≤ db5.nextId := hsf.2.2.2.2.2
    unfold submit_enrollment
    rw [hbody]
    refine ⟨_, _, rfl, ?_⟩
    rw [createEnrollments_eq]
    dsimp only
    rw [hclear.2.2.2.1, hdb7e, hex_e, hsf.2.2.1, hgf.2.2.1, heEq, hfid]
    rcases reconcile_core (fun c : ECRow => c.id) (fun c => c.family_id)
      db.emergency_contacts fid A B C (fun row => { row with fields := f1 })
      ⟨db5.nextId, fid, f2⟩ _ _ _ rfl rfl rfl wf.e_nodup hperm0
      (fun x => rfl) (fun x => rfl) hfreshE rfl with
      ⟨rA, hrAmem, hidA, hfamA, hfilt, hB, hC⟩
    refine ⟨db5.nextId, ?_, ?_, hB, hC⟩
    · intro hmem
      rcases List.mem_map.mp hmem with ⟨g, hgm, hgi⟩
      exact absurd hgi (hfreshE g hgm)
    · obtain ⟨rid, rfid, rflds⟩ := rA
      dsimp only at hidA hfamA
      subst hidA
      subst hfamA
      exact hfilt

/-- Witness for C1: against `c1Db`, the `c1Req` submission updates guardian
10 / student 13 / emergency contact 16, inserts exactly one fresh row per
kind, and deletes the omitted ids 11,12 / 14,15 / 17,18. -/
theorem reconciliation_completeness_witness :
    (∃ db' resp, submit_enrollment c1Db c1Req none = (db', .ok resp) ∧
      ∃ nid, nid ∉ c1Db.guardians.map (fun g => g.id) ∧
        db'.guardians.filter (fun g => g.family_id == 1) =
          [⟨10, 1, c1G1⟩, ⟨nid, 1, c1G2⟩] ∧
        11 ∉ db'.guardians.map (fun g => g.id) ∧
        12 ∉ db'.guardians.map (fun g => g.id)) ∧
    (∃ db' resp, submit_enrollment c1Db c1Req none = (db', .ok resp) ∧
      ∃ nid, nid ∉ c1Db.students.map (fun s => s.id) ∧
        db'.students.filter (fun s => s.family_id == 1) =
          [⟨13, 1, c1S1.toFields⟩, ⟨nid, 1, c1S2.toFields⟩] ∧
        14 ∉ db'.students.map (fun s => s.id) ∧
        15 ∉ db'.students.map (fun s => s.id)) ∧
    (∃ db' resp, submit_enrollment c1Db c1Req none = (db', .ok resp) ∧
      ∃ nid, nid ∉ c1Db.emergency_contacts.map (fun c => c.id) ∧
        db'.emergency_contacts.filter (fun c => c.family_id == 1) =
          [⟨16, 1, c1E1⟩, ⟨nid, 1, c1E2⟩] ∧
        17 ∉ db'.emergency_contacts.map (fun c => c.id) ∧
        18 ∉ db'.emergency_contacts.map (fun c => c.id)) := by
  have h := reconciliation_completeness c1Db c1Req 1
    (by constructor <;> decide) rfl
    ⟨⟨1, ⟨some "Fam", none, none, none, none, none⟩⟩, by decide, rfl⟩
  exact ⟨h.1 10 11 12 c1G1 (.placeholder "g-new") c1G2 rfl rfl (by decide),
         h.2.1 13 14 15 c1S1 c1S2 rfl rfl rfl (by decide),
         h.2.2 16 17 18 c1E1 (.placeholder "e-new") c1E2 rfl rfl (by decide)⟩

/-! ### Replace-per-year lemmas -/

lemma filter_twice {α : Type} (p q : α → Bool) (l : List α) :
    (l.filter p).filter q = l.filter (fun a => p a && q a) := by
  induction l with
  | nil => rfl
  | cons y t ih =>
    cases hp : p y with
    | false => simp [List.filter_cons, hp, ih]
    | true =>
      cases hq : q y with
      | false => simp [List.filter_cons, hp, hq, ih]
      | true => simp [List.filter_cons, hp, hq, ih]

lemma clearEnrollments_eq (yc : List Nat) (m : SMap) :
    ∀ (subs : List StudentSub) (db : DB),
      clearEnrollments yc m db subs =
        { db with enrollments :=
            db.enrollments.filter (fun e => !(clearedPred yc m subs e)) } := by
  intro subs
  induction subs with
  | nil =>
    intro db
    simp [clearEnrollments, clearedPred]
  | cons sd rest ih =>
    intro db
    unfold clearEnrollments
    cases hg : mapGet m sd.sid with
    | none =>
      dsimp only
      rw [ih db]
      have hE : db.enrollments.filter (fun e => !(clearedPred yc m rest e)) =
          db.enrollments.filter (fun e => !(clearedPred yc m (sd :: rest) e)) := by
        apply List.filter_congr
        intro e he
        unfold clearedPred
        simp [List.any_cons, hg]
      rw [hE]
    | some sid =>
      dsimp only
      rw [ih]
      dsimp only
      have hE : (db.enrollments.filter (fun e =>
          !(e.student_id == some sid && classIdInYear yc e))).filter
            (fun e => !(clearedPred yc m rest e)) =
          db.enrollments.filter (fun e => !(clearedPred yc m (sd :: rest) e)) := by
        rw [filter_twice]
        apply List.filter_congr
        intro e he
        unfold clearedPred
        simp [List.any_cons, hg]
      rw [hE]

lemma foldl_preserve {α β : Type} (f : β → α → β) (P : β → Prop) :
    ∀ (l : List α), (∀ b, ∀ a ∈ l, P b → P (f b a)) → ∀ b, P b → P (l.foldl f b) := by
  intro l
  induction l with
  | nil => intro _ b hb; exact hb
  | cons x t ih =>
    intro h b hb
    exact ih (fun b a ha hb => h b a (List.mem_cons_of_mem _ ha) hb) (f b x)
      (h b x (List.mem_cons_self _ _) hb)

lemma lmapGet_insert (m : LMap) (k : Int) (v : Nat) (l : Int) :
    lmapGet (lmapInsert m k v) l = if k == l then some v else lmapGet m l := by
  unfold lmapGet lmapInsert
  cases h : (k == l) with
  | true => simp [List.find?_cons, h]
  | false => simp [List.find?_cons, h]

lemma buildLevelMaps_range (db : DB) (cs : List ClassRow) :
    (∀ l cid, lmapGet (buildLevelMaps db cs).1 l = some cid →
        cid ∈ cs.map (fun c => c.id)) ∧
    (∀ l cid, lmapGet (buildLevelMaps db cs).2 l = some cid →
        cid ∈ cs.map (fun c => c.id)) := by
  unfold buildLevelMaps
  refine foldl_preserve _ (fun maps =>
      (∀ l cid, lmapGet maps.1 l = some cid → cid ∈ cs.map (fun c => c.id)) ∧
      (∀ l cid, lmapGet maps.2 l = some cid → cid ∈ cs.map (fun c => c.id)))
    cs ?_ ([], []) ⟨?_, ?_⟩
  · intro b c hc hP
    cases hpo : c.program_id with
    | none => exact hP
    | some pid =>
      dsimp only
      cases hfind : db.programs.find? (fun p => p.id == pid) with
      | none => exact hP
      | some prog =>
        dsimp only
        cases hlv : parse_class_level c.name with
        | none => exact hP
        | some level =>
          dsimp only
          by_cases hz : (level == 0) = true
          · rw [if_pos hz]
            exact hP
          · rw [if_neg hz]
            by_cases hgl : (containsSubstr prog.name "Giao Ly" ||
                containsSubstr c.name "Giáo Lý") = true
            · rw [if_pos hgl]
              refine ⟨?_, hP.2⟩
              intro l cid h
              rw [lmapGet_insert] at h
              by_cases hkl : ((level : Int) == l) = true
              · rw [if_pos hkl] at h
                injection h with h'
                rw [← h']
                exact List.mem_map_of_mem _ hc
              · rw [if_neg hkl] at h
                exact hP.1 l cid h
            · rw [if_neg hgl]
              by_cases hvn : (containsSubstr prog.name "Viet Ngu" ||
                  containsSubstr c.name "Việt Ngữ") = true
              · rw [if_pos hvn]
                refine ⟨hP.1, ?_⟩
                intro l cid h
                rw [lmapGet_insert] at h
                by_cases hkl : ((level : Int) == l) = true
                · rw [if_pos hkl] at h
                  injection h with h'
                  rw [← h']
                  exact List.mem_map_of_mem _ hc
                · rw [if_neg hkl] at h
                  exact hP.2 l cid h
              · rw [if_neg hvn]
                exact hP
  · intro l cid h
    exact absurd h (by simp [lmapGet])
  · intro l cid h
    exact absurd h (by simp [lmapGet])

lemma buildLevelMaps_congr (dbA dbB : DB) (h : dbA.programs = dbB.programs)
    (cs : List ClassRow) : buildLevelMaps dbA cs = buildLevelMaps dbB cs := by
  unfold buildLevelMaps
  simp only [h]

lemma selOne_get (lvl : Option Int) (lm : LMap) (cid : Nat)
    (h : selOne lvl lm = some cid) : ∃ l, lmapGet lm l = some cid := by
  cases lvl with
  | none => exact absurd h (by simp [selOne])
  | some l =>
    unfold selOne at h
    dsimp only at h
    by_cases hz : (l == 0) = true
    · rw [if_pos hz] at h
      exact absurd h (by simp)
    · rw [if_neg hz] at h
      exact ⟨l, h⟩

lemma derived_inYear (m : SMap) (gl vn : LMap) (ycids : List Nat)
    (hgl : ∀ l cid, lmapGet gl l = some cid → cid ∈ ycids)
    (hvn : ∀ l cid, lmapGet vn l = some cid → cid ∈ ycids) :
    ∀ (sels : List ClassSelection) (n : Nat) (e : EnrollmentRow),
      e ∈ derivedEnrollments m gl vn n sels → classIdInYear ycids e = true := by
  intro sels
  induction sels with
  | nil => intro n e he; exact absurd he (by simp [derivedEnrollments])
  | cons sel rest ih =>
    intro n e he
    unfold derivedEnrollments at he
    cases hres : resolveSel m sel with
    | none =>
      rw [hres] at he
      exact ih n e he
    | some sid =>
      rw [hres] at he
      cases hg : selOne sel.giao_ly_level gl with
      | some c1 =>
        cases hv : selOne sel.viet_ngu_level vn with
        | some c2 =>
          rw [hg, hv] at he
          rcases List.mem_cons.mp he with rfl | he'
          · rcases selOne_get _ _ _ hg with ⟨l, hl⟩
            unfold classIdInYear
            exact contains_eq_mem.mpr (hgl l c1 hl)
          · rcases List.mem_cons.mp he' with rfl | he''
            · rcases selOne_get _ _ _ hv with ⟨l, hl⟩
              unfold classIdInYear
              exact contains_eq_mem.mpr (hvn l c2 hl)
            · exact ih _ e he''
        | none =>
          rw [hg, hv] at he
          rcases List.mem_cons.mp he with rfl | he'
          · rcases selOne_get _ _ _ hg with ⟨l, hl⟩
            unfold classIdInYear
            exact contains_eq_mem.mpr (hgl l c1 hl)
          · exact ih _ e he'
      | none =>
        cases hv : selOne sel.viet_ngu_level vn with
        | some c2 =>
          rw [hg, hv] at he
          rcases List.mem_cons.mp he with rfl | he'
          · rcases selOne_get _ _ _ hv with ⟨l, hl⟩
            unfold classIdInYear
            exact contains_eq_mem.mpr (hvn l c2 hl)
          · exact ih _ e he'
        | none =>
          rw [hg, hv] at he
          exact ih n e he

lemma derived_id_ge (m : SMap) (gl vn : LMap) :
    ∀ (sels : List ClassSelection) (n : Nat) (e : EnrollmentRow),
      e ∈ derivedEnrollments m gl vn n sels → n ≤ e.id := by
  intro sels
  induction sels with
  | nil => intro n e he; exact absurd he (by simp [derivedEnrollments])
  | cons sel rest ih =>
    intro n e he
    unfold derivedEnrollments at he
    cases hres : resolveSel m sel with
    | none =>
      rw [hres] at he
      exact ih n e he
    | some sid =>
      rw [hres] at he
      cases hg : selOne sel.giao_ly_level gl with
      | some c1 =>
        cases hv : selOne sel.viet_ngu_level vn with
        | some c2 =>
          rw [hg, hv] at he
          rcases List.mem_cons.mp he with rfl | he'
          · exact Nat.le_refl _
          · rcases List.mem_cons.mp he' with rfl | he''
            · exact Nat.le_succ _
            · exact Nat.le_trans (Nat.le_add_right n 2) (ih _ e he'')
        | none =>
          rw [hg, hv] at he
          rcases List.mem_cons.mp he with rfl | he'
          · exact Nat.le_refl _
          · exact Nat.le_trans (Nat.le_add_right n 1) (ih _ e he')
      | none =>
        cases hv : selOne sel.viet_ngu_level vn with
        | some c2 =>
          rw [hg, hv] at he
          rcases List.mem_cons.mp he with rfl | he'
          · exact Nat.le_refl _
          · exact Nat.le_trans (Nat.le_add_right n 1) (ih _ e he')
        | none =>
          rw [hg, hv] at he
          exact ih n e he

/-- C5.  Enrollment full-replace per year with frame on other years: a
submission that echoes the family's durable student ids replaces the
family's enrollments in the target academic year wholesale — the store
afterwards holds the prior enrollments minus those cleared for this year's
classes, plus exactly the enrollments derived from this submission's class
selections; every enrollment not in a target-year class is untouched, and
every prior target-year enrollment of a submitted student is deleted.
Applied to the second of two submissions, only the second one's derived
target-year enrollments remain. -/
theorem enrollment_replace_per_year (db : DB) (req : Request) (fid : Nat)
    (wf : DBWF db)
    (hreq : req.family_id = some fid)
    (hfam : ∃ f ∈ db.families, f.id = fid)
    (hs : ∀ sd ∈ req.students, ∃ u, sd.sid = .durable u ∧
        u ∈ (db.students.filter (fun r => r.family_id == fid)).map (fun r => r.id) ∧
        (∀ r ∈ db.students, r.id = u → r.fields = sd.toFields))
    (hsc : ∀ u ∈ (db.students.filter (fun r => r.family_id == fid)).map (fun r => r.id),
        ∃ sd ∈ req.students, sd.sid = .durable u) :
    ∃ db' resp n, submit_enrollment db req none = (db', .ok resp) ∧
      db.nextId ≤ n ∧
      db'.enrollments =
        db.enrollments.filter (fun e =>
          !(clearedPred ((yearClassesOf db req.academic_year_id).map (fun c => c.id))
            (echoStudentMap [] req.students) req.students e)) ++
        derivedEnrollments (echoStudentMap [] req.students)
          (buildLevelMaps db (yearClassesOf db req.academic_year_id)).1
          (buildLevelMaps db (yearClassesOf db req.academic_year_id)).2 n
          req.class_selections ∧
      db'.enrollments.filter (fun e =>
          !(classIdInYear ((yearClassesOf db req.academic_year_id).map (fun c => c.id)) e)) =
        db.enrollments.filter (fun e =>
          !(classIdInYear ((yearClassesOf db req.academic_year_id).map (fun c => c.id)) e)) ∧
      (∀ e ∈ db.enrollments, ∀ sd ∈ req.students, ∀ u,
        mapGet (echoStudentMap [] req.students) sd.sid = some u →
        e.student_id = some u →
        classIdInYear ((yearClassesOf db req.academic_year_id).map (fun c => c.id)) e = true →
        e ∉ db'.enrollments) := by
  rcases resolveFamily_ok db req (fun fid' h => by
    rw [hreq] at h
    injection h with h'
    subst h'
    exact hfam) with ⟨db1, fam, h1, hfamid, hgEq, hsEq, heEq, hpEq, hcEq, henEq, hnle, hnex⟩
  have hfid : fam.id = fid := hfamid fid hreq
  have hsome : req.family_id.isSome = true := by rw [hreq]; rfl
  have hnexteq : db1.nextId = db.nextId := hnex hsome
  rcases guardianPhase_ok db1 req fam.id with ⟨db3, h2⟩
  have hgf := guardianPhase_frame db1 req fam.id db3 h2
  have hex_s : existingStudentIds db3 req fam.id =
      (db.students.filter (fun r => r.family_id == fid)).map (fun r => r.id) := by
    unfold existingStudentIds
    rw [if_pos hsome, hgf.2.1, hsEq, hfid]
  have h3 : studentPhase db3 req fam.id = .ok (db3, echoStudentMap [] req.students) := by
    apply studentPhase_echo
    · intro sd hsd
      rcases hs sd hsd with ⟨u, hu1, hu2, hu3⟩
      exact ⟨u, hu1, by rw [hex_s]; exact hu2, by rw [hgf.2.1, hsEq]; exact hu3⟩
    · intro u hu
      rw [hex_s] at hu
      exact hsc u hu
  rcases ecPhase_ok db3 req fam.id with ⟨db7, h4⟩
  have hef := ecPhase_frame db3 req fam.id db7 h4
  have hbody := submitBody_none_eq db req db1 fam db3 db3
    (echoStudentMap [] req.students) db7 h1 h2 h3 h4
  have hyc : yearClassesOf db7 req.academic_year_id =
      yearClassesOf db req.academic_year_id := by
    unfold yearClassesOf
    rw [hef.2.2.2.2.1, hgf.2.2.2.2.1, hcEq]
  have hbm : buildLevelMaps db7 (yearClassesOf db req.academic_year_id) =
      buildLevelMaps db (yearClassesOf db req.academic_year_id) :=
    buildLevelMaps_congr db7 db (by rw [hef.2.2.2.1, hgf.2.2.2.1, hpEq]) _
  have henr7 : db7.enrollments = db.enrollments := by
    rw [hef.2.2.2.2.2.1, hgf.2.2.2.2.2.1, henEq]
  have hnle7 : db.nextId ≤ db7.nextId := by
    have l1 := hgf.2.2.2.2.2.2
    have l2 := hef.2.2.2.2.2.2
    omega
  have hrange := buildLevelMaps_range db (yearClassesOf db req.academic_year_id)
  have hycids : ((yearClassesOf db req.academic_year_id).map (fun c => c.id)) =
      (yearClassesOf db req.academic_year_id).map (fun c => c.id) := rfl
  unfold submit_enrollment
  rw [hbody]
  refine ⟨_, _, db7.nextId, rfl, hnle7, ?_, ?_, ?_⟩
  · -- full characterization of the enrollments table
    rw [createEnrollments_eq]
    dsimp only
    rw [clearEnrollments_eq]
    dsimp only
    rw [hyc, hbm, henr7]
  · -- frame on enrollments outside the target year
    rw [createEnrollments_eq]
    dsimp only
    rw [clearEnrollments_eq]
    dsimp only
    rw [hyc, hbm, henr7, List.filter_append]
    have hdnil : (derivedEnrollments (echoStudentMap [] req.students)
        (buildLevelMaps db (yearClassesOf db req.academic_year_id)).1
        (buildLevelMaps db (yearClassesOf db req.academic_year_id)).2 db7.nextId
        req.class_selections).filter (fun e =>
          !(classIdInYear ((yearClassesOf db req.academic_year_id).map (fun c => c.id)) e))
        = [] := by
      rw [List.filter_eq_nil]
      intro e he
      rw [derived_inYear _ _ _ _ hrange.1 hrange.2 _ _ _ he]
      simp
    rw [hdnil, List.append_nil, filter_twice]
    apply List.filter_congr
    intro e he
    cases hin : classIdInYear ((yearClassesOf db req.academic_year_id).map (fun c => c.id)) e with
    | true => simp [hin]
    | false =>
      have hcp : clearedPred ((yearClassesOf db req.academic_year_id).map (fun c => c.id))
          (echoStudentMap [] req.students) req.students e = false := by
        unfold clearedPred
        rw [List.any_eq_false]
        intro sd hsd
        cases hm : mapGet (echoStudentMap [] req.students) sd.sid with
        | none => simp
        | some sid => simp [hin]
      simp [hcp, hin]
  · -- prior target-year enrollments of submitted students are deleted
    intro e he sd hsd u hmap hesid hin
    rw [createEnrollments_eq]
    dsimp only
    rw [clearEnrollments_eq]
    dsimp only
    rw [hyc, hbm, henr7]
    intro hmem
    rcases List.mem_append.mp hmem with hmem | hmem
    · have hpred := (List.mem_filter.mp hmem).2
      have hcp : clearedPred ((yearClassesOf db req.academic_year_id).map (fun c => c.id))
          (echoStudentMap [] req.students) req.students e = true := by
        unfold clearedPred
        rw [List.any_eq_true]
        refine ⟨sd, hsd, ?_⟩
        rw [hmap]
        simp [hesid, hin]
      rw [hcp] at hpred
      simp at hpred
    · have hge := derived_id_ge _ _ _ _ _ _ hmem
      have hlt := wf.en_fresh e he
      omega

/-- Witness for C5: resubmitting family 1's selections for year 7 against
`c5Db` keeps only the non-target-year and newly derived enrollments; the
prior year-7 enrollment of student 20 is deleted. -/
theorem enrollment_replace_per_year_witness :
    ∃ db' resp n, submit_enrollment c5Db c5Req none = (db', .ok resp) ∧
      c5Db.nextId ≤ n ∧
      db'.enrollments =
        c5Db.enrollments.filter (fun e =>
          !(clearedPred ((yearClassesOf c5Db c5Req.academic_year_id).map (fun c => c.id))
            (echoStudentMap [] c5Req.students) c5Req.students e)) ++
        derivedEnrollments (echoStudentMap [] c5Req.students)
          (buildLevelMaps c5Db (yearClassesOf c5Db c5Req.academic_year_id)).1
          (buildLevelMaps c5Db (yearClassesOf c5Db c5Req.academic_year_id)).2 n
          c5Req.class_selections ∧
      db'.enrollments.filter (fun e =>
          !(classIdInYear ((yearClassesOf c5Db c5Req.academic_year_id).map
            (fun c => c.id)) e)) =
        c5Db.enrollments.filter (fun e =>
          !(classIdInYear ((yearClassesOf c5Db c5Req.academic_year_id).map
            (fun c => c.id)) e)) ∧
      (∀ e ∈ c5Db.enrollments, ∀ sd ∈ c5Req.students, ∀ u,
        mapGet (echoStudentMap [] c5Req.students) sd.sid = some u →
        e.student_id = some u →
        classIdInYear ((yearClassesOf c5Db c5Req.academic_year_id).map
          (fun c => c.id)) e = true →
        e ∉ db'.enrollments) := by
  apply enrollment_replace_per_year c5Db c5Req 1
    (by constructor <;> decide) rfl
    ⟨⟨1, ⟨some "Fam", none, none, none, none, none⟩⟩, by decide, rfl⟩
  · intro sd hsd
    simp only [c5Req, List.mem_singleton] at hsd
    subst hsd
    exact ⟨20, rfl, by decide, by decide⟩
  · intro u hu
    simp only [c5Db] at hu
    have : u = 20 := by simpa using hu
    subst this
    exact ⟨⟨.durable 20, "A", "B", none, none, none, none, none, none, none, none, none⟩,
      by simp [c5Req], rfl⟩

end GXKTM
